import Mathlib

/-!
Verification development for the photographyserver sync worker
(`pgs_sync`: `sync_engine.py`, `utils.py`, `worker.py`, with the catalog
model from `pgs_db/models/photos.py`).

The Python code is shallowly embedded:

* `generate_title_from_filename`, `is_supported_image_file` and the path
  helpers are translated character by character from `pgs_sync/utils.py`
  (Python `re.sub` is modelled by a left-to-right scanner per pattern;
  each concrete pattern used by the code is deterministic, see the
  comments at each matcher).
* The database session is a value (`SessionState` / the row list): rows
  are plain records, `session.commit` enforces the `file_path` unique
  constraint of the `photos` table, `session.delete` removes by primary
  key `id`.
* Filesystem and database I/O is an explicit `World`: `fileExists`,
  `resolve` (symlink expansion), `metadata` (fallible
  `extract_image_metadata`) and `lookupFault` (a database-layer fault
  raised by `session.execute` inside `_get_photo_by_path`).
* `datetime` values are abstract `Nat` timestamps: the engine only ever
  compares them for equality.
-/

/-! ## Characters and path helpers (`pathlib.Path.name` / `.stem` / `.suffix`) -/

/-- Python `-`/`_` separator class `[-_]` used throughout the title regexes. -/
def isSepChar (c : Char) : Bool := c == '-' || c == '_'

/-- The `[-_:]` class of the time-of-day pattern. -/
def isSepColon (c : Char) : Bool := isSepChar c || c == ':'

/-- Python whitespace class `\s` (ASCII part; the engine only ever produces spaces). -/
def isPySpace (c : Char) : Bool :=
  c == ' ' || c == '\t' || c == '\n' || c == '\r' || c == '\x0b' || c == '\x0c'

/-- Last `/`-separated component of a path string, as `pathlib.Path(p).name`. -/
def lastComponent : List Char → List Char → List Char
  | acc, [] => acc
  | acc, c :: rest => if c = '/' then lastComponent [] rest else lastComponent (acc ++ [c]) rest

def pathName (p : String) : String := String.mk (lastComponent [] p.toList)

/-- Index of the last `.` in a name (Python `str.rfind('.')` restricted to found). -/
def rfindDot : List Char → Option Nat
  | [] => none
  | c :: rest =>
    match rfindDot rest with
    | some i => some (i + 1)
    | none => if c = '.' then some 0 else none

/-- `pathlib`'s stem: `name[:i]` when `0 < i < len(name) - 1` for the last dot `i`,
else the whole name (so `.hidden` has stem `.hidden`). -/
def stemOfName (name : List Char) : List Char :=
  match rfindDot name with
  | some i => if 0 < i ∧ i < name.length - 1 then name.take i else name
  | none => name

/-- `pathlib`'s suffix: `name[i:]` when `0 < i < len(name) - 1`, else empty
(so `.DS_Store` has no suffix, while `.secret.jpg` has suffix `.jpg`). -/
def suffixOfName (name : List Char) : List Char :=
  match rfindDot name with
  | some i => if 0 < i ∧ i < name.length - 1 then name.drop i else []
  | none => []

/-! ## The regex pipeline of `generate_title_from_filename` (utils.py lines 44-84)

Each `re.sub(pattern, repl, name)` is modelled by `substAll matcher repl`:
scan left to right, at each position try the pattern; on a match emit the
replacement and resume after the matched text, otherwise keep the character
and advance one position.  Every pattern below consumes at least one
character on a match, so fuel `l.length` is always sufficient. -/

def substN (pat : List Char → Option (List Char)) (repl : List Char) :
    Nat → List Char → List Char
  | 0, l => l
  | _ + 1, [] => []
  | n + 1, c :: rest =>
    match pat (c :: rest) with
    | some rest2 => repl ++ substN pat repl n rest2
    | none => c :: substN pat repl n rest

def substAll (pat : List Char → Option (List Char)) (repl : List Char)
    (l : List Char) : List Char :=
  substN pat repl l.length l

/-- One optional `[-_]?` at the end of a match (greedy; nothing follows it in
the patterns that use it, so no backtracking arises). -/
def dropOneSep : List Char → List Char
  | [] => []
  | c :: rest => if isSepChar c then rest else c :: rest

/-- Same for the optional `[-_:]?` inside the time pattern.  Greedy is exact
here too: if the separator is consumed the next group needs a digit, and a
separator is never a digit, so the non-consuming alternative always fails. -/
def dropOneSepColon : List Char → List Char
  | [] => []
  | c :: rest => if isSepColon c then rest else c :: rest

/-- Body of `[-_]?20\d{6}[-_]?` after the optional leading separator.
Note the source validates nothing beyond `\d` here: any six digits after
`20` are accepted. -/
def date8Core : List Char → Option (List Char)
  | '2' :: '0' :: d1 :: d2 :: d3 :: d4 :: d5 :: d6 :: rest =>
    if d1.isDigit && d2.isDigit && d3.isDigit && d4.isDigit && d5.isDigit && d6.isDigit then
      some (dropOneSep rest)
    else none
  | _ => none

/-- `[-_]?20\d{6}[-_]?` (utils.py line 60).  The optional leading separator is
greedy-exact: after consuming it the pattern needs `2`, and a separator is
not `2`, so the backtracking alternative always fails. -/
def matchDate8 (l : List Char) : Option (List Char) :=
  match l with
  | c :: rest => if isSepChar c then date8Core rest else date8Core l
  | [] => none

/-- `(0[1-9]|1[0-2])`. -/
def validMonth (a b : Char) : Bool :=
  (a == '0' && '1' ≤ b && b ≤ '9') || (a == '1' && '0' ≤ b && b ≤ '2')

/-- `(0[1-9]|[12]\d|3[01])`. -/
def validDay (a b : Char) : Bool :=
  (a == '0' && '1' ≤ b && b ≤ '9') || ((a == '1' || a == '2') && b.isDigit) ||
    (a == '3' && (b == '0' || b == '1'))

/-- Body of the separated date pattern `20\d{2}[-_](0[1-9]|1[0-2])[-_](0[1-9]|[12]\d|3[01])[-_]?`. -/
def dateSepCore : List Char → Option (List Char)
  | '2' :: '0' :: y1 :: y2 :: s1 :: m1 :: m2 :: s2 :: d1 :: d2 :: rest =>
    if y1.isDigit && y2.isDigit && isSepChar s1 && validMonth m1 m2 && isSepChar s2 &&
        validDay d1 d2 then
      some (dropOneSep rest)
    else none
  | _ => none

/-- `[-_]?20\d{2}[-_](0[1-9]|1[0-2])[-_](0[1-9]|[12]\d|3[01])[-_]?` (utils.py line 62). -/
def matchDateSep (l : List Char) : Option (List Char) :=
  match l with
  | c :: rest => if isSepChar c then dateSepCore rest else dateSepCore l
  | [] => none

/-- `([01]\d|2[0-3])`. -/
def validHour (a b : Char) : Bool :=
  ((a == '0' || a == '1') && b.isDigit) || (a == '2' && '0' ≤ b && b ≤ '3')

/-- `[0-5]\d`. -/
def validMinSec (a b : Char) : Bool := '0' ≤ a && a ≤ '5' && b.isDigit

/-- Body of the time pattern `([01]\d|2[0-3])[-_:]?([0-5]\d)[-_:]?([0-5]\d)[-_]?`. -/
def timeCore (l : List Char) : Option (List Char) :=
  match l with
  | a :: b :: rest =>
    if validHour a b then
      match dropOneSepColon rest with
      | c :: d :: rest2 =>
        if validMinSec c d then
          match dropOneSepColon rest2 with
          | e :: f :: rest3 => if validMinSec e f then some (dropOneSep rest3) else none
          | _ => none
        else none
      | _ => none
    else none
  | _ => none

/-- `[-_]?([01]\d|2[0-3])[-_:]?([0-5]\d)[-_:]?([0-5]\d)[-_]?` (utils.py line 65). -/
def matchTime (l : List Char) : Option (List Char) :=
  match l with
  | c :: rest => if isSepChar c then timeCore rest else timeCore l
  | [] => none

def countLeadingDigits : List Char → Nat
  | [] => 0
  | c :: rest => if c.isDigit then countLeadingDigits rest + 1 else 0

/-- `re.sub(r"^[-_]?\d{1,4}[-_]", "", name)` (utils.py line 68): anchored, so
at most one replacement.  The greedy `\d{1,4}` followed by a mandatory
separator matches exactly when the maximal leading digit run has length 1-4
and is followed by a separator (a longer run leaves a digit, not a
separator, after any 1-4 of its digits). -/
def stripLeadingNum (l : List Char) : List Char :=
  let l1 := dropOneSep l
  let r := countLeadingDigits l1
  if 1 ≤ r ∧ r ≤ 4 then
    match l1.drop r with
    | c :: rest => if isSepChar c then rest else l
    | [] => l
  else l

/-- `[-_]\d{1,4}$` (utils.py line 69): a separator followed by 1-4 digits
running to the end of the string. -/
def matchTrailingNum : List Char → Option (List Char)
  | c :: rest =>
    if isSepChar c && decide (1 ≤ rest.length) && decide (rest.length ≤ 4) &&
        rest.all Char.isDigit then
      some []
    else none
  | [] => none

def dropLeadingSeps : List Char → List Char
  | [] => []
  | c :: rest => if isSepChar c then dropLeadingSeps rest else c :: rest

/-- `[-_]+` (utils.py line 72): a maximal nonempty run of separators. -/
def matchSepRun : List Char → Option (List Char)
  | c :: rest => if isSepChar c then some (dropLeadingSeps rest) else none
  | [] => none

def dropLeadingSpaces : List Char → List Char
  | [] => []
  | c :: rest => if isPySpace c then dropLeadingSpaces rest else c :: rest

/-- `\s+` (utils.py line 75). -/
def matchSpaceRun : List Char → Option (List Char)
  | c :: rest => if isPySpace c then some (dropLeadingSpaces rest) else none
  | [] => none

/-- Python `str.strip()`. -/
def stripChars (l : List Char) : List Char :=
  ((l.dropWhile isPySpace).reverse.dropWhile isPySpace).reverse

/-- Python `str.title()`: a letter is uppercased after a non-cased character
and lowercased after a cased one (digits and punctuation are not cased). -/
def titleCaseGo : Bool → List Char → List Char
  | _, [] => []
  | prevCased, c :: rest =>
    if c.isAlpha then
      (if prevCased then c.toLower else c.toUpper) :: titleCaseGo true rest
    else c :: titleCaseGo false rest

def titleCase (l : List Char) : List Char := titleCaseGo false l

/-- Matching of one alternative of `^(IMG|DSC|DSCN|P|PIC|PHOTO|IMAGE)[-_]`:
the literal word followed by a mandatory separator. -/
def leadMatch : List Char → List Char → Option (List Char)
  | [], c :: rest => if isSepChar c then some rest else none
  | [], [] => none
  | a :: ws, c :: rest => if a == c then leadMatch ws rest else none
  | _ :: _, [] => none

/-- The camera-prefix alternatives in source order (utils.py line 56).  The
regex engine backtracks through them; since each alternative demands a
separator right after the literal, at most one can match, so the ordered
first-match is exact. -/
def cameraWords : List (List Char) :=
  ["IMG".toList, "DSC".toList, "DSCN".toList, "P".toList, "PIC".toList, "PHOTO".toList,
    "IMAGE".toList]

def stripCameraCode (l : List Char) : List Char :=
  match cameraWords.findSome? (fun w => leadMatch w l) with
  | some rest => rest
  | none => l

/-- Replacement used by the empty-title fallback:
`.replace("_", " ").replace("-", " ")`. -/
def sepToSpace (c : Char) : Char := if isSepChar c then ' ' else c

/-- `generate_title_from_filename` (utils.py lines 44-84), step for step. -/
def generate_title_from_filename (filename : String) : String :=
  let stem := stemOfName (pathName filename).toList
  let n1 := stripCameraCode stem
  let n2 := substAll matchDate8 ['_'] n1
  let n3 := substAll matchDateSep ['_'] n2
  let n4 := substAll matchTime ['_'] n3
  let n5 := stripLeadingNum n4
  let n6 := substAll matchTrailingNum [] n5
  let n7 := substAll matchSepRun [' '] n6
  let n8 := substAll matchSpaceRun [' '] n7
  let n9 := titleCase (stripChars n8)
  if n9 = [] then String.mk (titleCase (stem.map sepToSpace))
  else String.mk n9

/-! ## Supported extensions (`config.py` lines 22-40, `utils.py` lines 87-97) -/

def supported_extensions : List String :=
  [".jpg", ".jpeg", ".png", ".gif", ".webp", ".bmp", ".tiff", ".tif", ".raw", ".cr2",
    ".nef", ".arw", ".dng", ".orf", ".rw2", ".pef", ".srw"]

/-- `is_supported_image_file`: `file_path.suffix.lower() in supported_extensions`. -/
def is_supported_image_file (file_path : String) (exts : List String) : Bool :=
  exts.contains (String.mk ((suffixOfName (pathName file_path).toList).map Char.toLower))

example : generate_title_from_filename "beach_20230615.jpg" = "Beach" := by decide
example : generate_title_from_filename "beach_20991399.jpg" = "Beach" := by decide
example : generate_title_from_filename "beach_2023-06-15.jpg" = "Beach" := by decide
example : generate_title_from_filename "beach_2023-99-99.jpg" = "Beach 2023 99" := by decide
example : generate_title_from_filename "sunset.jpg" = "Sunset" := by decide
example : generate_title_from_filename "beautiful_sunset.jpg" = "Beautiful Sunset" := by decide
example : generate_title_from_filename ".secret.jpg" = ".Secret" := by decide
example : generate_title_from_filename "IMG_1234.jpg" = "1234" := by decide
example : generate_title_from_filename "IMG_20230615_sunset.jpg" = "Sunset" := by decide
example : generate_title_from_filename "20991399.jpg" = "20991399" := by decide
example : is_supported_image_file "/p/a/.secret.jpg" supported_extensions = true := by decide
example : is_supported_image_file "/p/a/.DS_Store" supported_extensions = false := by decide
example : is_supported_image_file "/p/a/x.TXT" supported_extensions = false := by decide
example : is_supported_image_file "/p/a/x.JPG" supported_extensions = true := by decide

/-! ## Data model (`pgs_db/models/photos.py`, `pgs_sync/sync_types.py`)

`file_modified_at` timestamps are abstract `Nat` values — the engine only
compares them for equality.  `title` is nullable in the schema and the code
treats the empty value as falsy; it is modelled as `String` with `""` for
the null/empty case.  The primary key `id` is modelled as a `Nat` drawn from
a fresh-id counter (the source draws a random UUID). -/

structure ImageMetadata where
  file_size : Nat
  width : Option Nat
  height : Option Nat
  file_modified_at : Nat
deriving DecidableEq, Repr

structure Photo where
  id : Nat
  filename : String
  file_path : String
  category : String
  title : String
  file_size : Nat
  width : Option Nat
  height : Option Nat
  file_modified_at : Nat
deriving DecidableEq, Repr

structure SyncStats where
  files_scanned : Nat
  files_added : Nat
  files_updated : Nat
  files_removed : Nat
  errors : Nat
deriving DecidableEq, Repr

inductive FileEventType where
  | created
  | modified
  | deleted
  | moved
deriving DecidableEq, Repr

structure FileEvent where
  event_type : FileEventType
  file_path : String
  category : String
  timestamp : Nat
deriving DecidableEq, Repr

/-- Faults visible to the engine: `databaseError` stands for the
SQLAlchemy-layer exceptions (a failing `session.execute`, a
`MultipleResultsFound` from `scalar_one_or_none`, a unique-constraint
violation at commit), `ioError` for `OSError`/decoder faults raised by
`extract_image_metadata`. -/
inductive SyncError where
  | databaseError
  | ioError
  | storageNotFound
  | storageNotADirectory
deriving DecidableEq, Repr

/-- The ambient world of one engine call: filesystem facts and the
fallibility of I/O.  `fileExists p` is `Path(p).exists()`, `resolve p` is
`str(Path(p).resolve())`, `metadata p` is `extract_image_metadata(Path(p))`
(its `OSError` modelled as `.error`), and `lookupFault p` says whether the
`session.execute` inside `_get_photo_by_path(session, p)` raises a
database-layer fault. -/
structure World where
  fileExists : String → Bool
  resolve : String → String
  metadata : String → Except SyncError ImageMetadata
  lookupFault : String → Bool

/-- The open session: the rows of the `photos` table plus the fresh-id
counter for newly constructed `PLPhoto` objects. -/
structure SessionState where
  rows : List Photo
  nextId : Nat
deriving DecidableEq, Repr

def photoPaths (rows : List Photo) : List String := rows.map (·.file_path)

/-! ## Event handlers (`sync_engine.py` lines 237-345) -/

/-- `_get_photo_by_path` (lines 330-341): a `select ... where file_path = p`
followed by `scalar_one_or_none()`, which raises `MultipleResultsFound`
when several rows match. -/
def get_photo_by_path (w : World) (rows : List Photo) (p : String) :
    Except SyncError (Option Photo) :=
  if w.lookupFault p then .error .databaseError
  else
    match rows.filter (fun r => r.file_path == p) with
    | [] => .ok none
    | [r] => .ok (some r)
    | _ => .error .databaseError

/-- `_handle_file_created` (lines 237-265). -/
def handle_file_created (w : World) (st : SessionState) (e : FileEvent) :
    Except SyncError SessionState :=
  if ¬ w.fileExists e.file_path then .ok st
  else do
    let existing ← get_photo_by_path w st.rows e.file_path
    match existing with
    | some _ => .ok st
    | none => do
      let metadata ← w.metadata e.file_path
      let title := generate_title_from_filename (pathName e.file_path)
      let new_photo : Photo :=
        { id := st.nextId
          filename := pathName e.file_path
          file_path := w.resolve e.file_path
          category := e.category
          title := title
          file_size := metadata.file_size
          width := metadata.width
          height := metadata.height
          file_modified_at := metadata.file_modified_at }
      .ok { rows := st.rows ++ [new_photo], nextId := st.nextId + 1 }

/-- `_handle_file_modified` (lines 267-299).  Note the source assigns
`existing_photo.filename = event.file_path.name` *before* testing
`existing_photo.title == generate_title_from_filename(existing_photo.filename)`,
so the auto-title test runs against the new filename. -/
def handle_file_modified (w : World) (st : SessionState) (e : FileEvent) :
    Except SyncError SessionState :=
  if ¬ w.fileExists e.file_path then .ok st
  else do
    let existing ← get_photo_by_path w st.rows e.file_path
    match existing with
    | none => handle_file_created w st e
    | some photo => do
      let metadata ← w.metadata e.file_path
      if photo.file_modified_at == metadata.file_modified_at then .ok st
      else
        let p1 : Photo :=
          { photo with
            filename := pathName e.file_path
            category := e.category
            file_size := metadata.file_size
            width := metadata.width
            height := metadata.height
            file_modified_at := metadata.file_modified_at }
        let p2 : Photo :=
          if p1.title == "" || p1.title == generate_title_from_filename p1.filename then
            { p1 with title := generate_title_from_filename (pathName e.file_path) }
          else p1
        .ok { st with
          rows := st.rows.map (fun q => if q.file_path == photo.file_path then p2 else q) }

/-- `_handle_file_deleted` (lines 301-309): `session.delete` removes the
found object, i.e. the row with its primary key. -/
def handle_file_deleted (w : World) (st : SessionState) (e : FileEvent) :
    Except SyncError SessionState := do
  let existing ← get_photo_by_path w st.rows e.file_path
  match existing with
  | none => .ok st
  | some photo => .ok { st with rows := st.rows.filter (fun q => ! (q.id == photo.id)) }

/-- `_handle_file_moved` (lines 311-315) delegates to the delete handler. -/
def handle_file_moved (w : World) (st : SessionState) (e : FileEvent) :
    Except SyncError SessionState :=
  handle_file_deleted w st e

/-- The event dispatch shared by `process_file_event` and
`process_event_batch` (lines 76-83). -/
def applyEvent (w : World) (st : SessionState) (e : FileEvent) :
    Except SyncError SessionState :=
  match e.event_type with
  | .created => handle_file_created w st e
  | .modified => handle_file_modified w st e
  | .deleted => handle_file_deleted w st e
  | .moved => handle_file_moved w st e

/-- `session.commit()`: flushing the pending rows enforces the unique
constraint on `file_path` (models/photos.py line 17). -/
def commitSession (st : SessionState) : Except SyncError SessionState :=
  if (photoPaths st.rows).Nodup then .ok st else .error .databaseError

/-- `process_event_batch` (lines 57-94): filter to supported files, then one
transaction in which each event is applied inside its own
`try/except Exception` that logs and continues, followed by one commit;
an `.error` result stands for raise-after-rollback (the caller's catalog is
unchanged). -/
def process_event_batch (w : World) (st : SessionState) (events : List FileEvent) :
    Except SyncError SessionState :=
  let supported_events := events.filter
    (fun e => is_supported_image_file e.file_path supported_extensions)
  if supported_events.isEmpty then .ok st
  else
    let st2 := supported_events.foldl
      (fun acc e =>
        match applyEvent w acc e with
        | .ok s => s
        | .error _ => acc)
      st
    commitSession st2

/-! ## Full sync (`_perform_full_sync`, sync_engine.py lines 114-235)

The storage directory is a two-level listing: the immediate children of the
root (`Storage.dirs`, each with its `is_dir` flag) and, inside each, the
directory entries (`DirEnt`, each with its `is_file` flag).  A `DirEnt`
carries both the `Path` string the scan iterates over and its basename, the
two faces of the Python `Path` object the loop uses. -/

structure DirEnt where
  name : String
  path : String
  is_file : Bool
deriving DecidableEq, Repr

structure CategoryDir where
  name : String
  is_dir : Bool
  entries : List DirEnt
deriving DecidableEq, Repr

structure Storage where
  rootExists : Bool
  is_dir : Bool
  dirs : List CategoryDir
deriving DecidableEq, Repr

/-- State of the scan loop: the pre-loaded `existing_photos` rows (mutated
in place by updates, keyed by `file_path`), the `session.add`ed new rows,
the `found_file_paths` set (as a list), the running `SyncStats`, and the
fresh-id counter. -/
structure ScanState where
  existing : List Photo
  added : List Photo
  found : List String
  stats : SyncStats
  nextId : Nat
deriving DecidableEq, Repr

/-- The body of the inner file loop (lines 149-208) for one directory entry.
The lookup is the Python dict `existing_photos.get`; since `file_path` is
unique in the catalog (models/photos.py line 17) the first match is the
dict's entry, and the in-place mutation of the one matching object is the
path-keyed map. -/
def scanFile (w : World) (category_name : String) (st : ScanState) (f : DirEnt) : ScanState :=
  if ¬ (f.is_file && is_supported_image_file f.path supported_extensions) then st
  else
    let file_path_str := w.resolve f.path
    let st :=
      { st with
        found := st.found ++ [file_path_str]
        stats := { st.stats with files_scanned := st.stats.files_scanned + 1 } }
    let existing_photo := st.existing.find? (fun p => p.file_path == file_path_str)
    match w.metadata f.path with
    | .error _ => { st with stats := { st.stats with errors := st.stats.errors + 1 } }
    | .ok metadata =>
      match existing_photo with
      | none =>
        let title := generate_title_from_filename f.name
        let new_photo : Photo :=
          { id := st.nextId
            filename := f.name
            file_path := file_path_str
            category := category_name
            title := title
            file_size := metadata.file_size
            width := metadata.width
            height := metadata.height
            file_modified_at := metadata.file_modified_at }
        { st with
          added := st.added ++ [new_photo]
          stats := { st.stats with files_added := st.stats.files_added + 1 }
          nextId := st.nextId + 1 }
      | some photo =>
        if photo.file_modified_at == metadata.file_modified_at then st
        else
          let p1 : Photo :=
            { photo with
              filename := f.name
              category := category_name
              file_size := metadata.file_size
              width := metadata.width
              height := metadata.height
              file_modified_at := metadata.file_modified_at }
          let p2 : Photo :=
            if p1.title == "" || p1.title == generate_title_from_filename p1.filename then
              { p1 with title := generate_title_from_filename f.name }
            else p1
          { st with
            existing := st.existing.map (fun q => if q.file_path == photo.file_path then p2 else q)
            stats := { st.stats with files_updated := st.stats.files_updated + 1 } }

/-- The uncurried scan body, for reasoning about the walk as one fold. -/
def scanStep (w : World) (st : ScanState) (cf : String × DirEnt) : ScanState :=
  scanFile w cf.1 st cf.2

/-- The two-level directory walk of `_perform_full_sync` (lines 141-208):
iterate the immediate children of the root, skip non-directories, and run
the file loop over each directory's entries. -/
def fullScan (w : World) (storage : Storage) (st0 : ScanState) : ScanState :=
  storage.dirs.foldl
    (fun acc d => if ¬ d.is_dir then acc else d.entries.foldl (scanFile w d.name) acc) st0

/-- `_perform_full_sync` (lines 114-235).  Orphan rows are deleted by
primary key (`delete ... where id in orphaned_ids`, line 217); the final
commit enforces the `file_path` unique constraint. -/
def perform_full_sync (w : World) (storage : Storage) (catalog : List Photo) (nextId : Nat) :
    Except SyncError (List Photo × SyncStats) :=
  if ¬ storage.rootExists then .error .storageNotFound
  else if ¬ storage.is_dir then .error .storageNotADirectory
  else
    let st0 : ScanState :=
      { existing := catalog, added := [], found := []
        stats := ⟨0, 0, 0, 0, 0⟩, nextId := nextId }
    let st := fullScan w storage st0
    let orphaned_photos := st.existing.filter (fun p => ! st.found.contains p.file_path)
    let orphaned_ids := orphaned_photos.map (·.id)
    let remaining := st.existing.filter (fun p => ! orphaned_ids.contains p.id)
    let final_rows := remaining ++ st.added
    let final_stats :=
      { st.stats with files_removed := st.stats.files_removed + orphaned_photos.length }
    match commitSession { rows := final_rows, nextId := st.nextId } with
    | .ok _ => .ok (final_rows, final_stats)
    | .error err => .error err

/-- The files the two-level walk visits and keeps: regular supported files
directly inside the directory children of the root, tagged with their
category name. -/
def walkFiles (storage : Storage) : List (String × DirEnt) :=
  (storage.dirs.filter (·.is_dir)).flatMap
    (fun d =>
      (d.entries.filter (fun f => f.is_file && is_supported_image_file f.path supported_extensions)).map
        (fun f => (d.name, f)))

/-- Resolved paths of the files the walk visits: the specification set of
`{supported files exactly two levels under root, resolved}`. -/
def scanPaths (w : World) (storage : Storage) : List String :=
  (walkFiles storage).map (fun cf => w.resolve cf.2.path)

/-! ## Worker retry loop (`worker.py` lines 154-189)

One call of `_process_event_batch_with_retry` is driven by an oracle
`outcome : Nat → Option SyncError` giving the result of the k-th invocation
of `process_event_batch` (`none` = success).  The model returns the raised
error, if any, together with the number of invocations made. -/

def retryGo (outcome : Nat → Option SyncError) :
    Nat → Nat → Option SyncError → Nat → Option SyncError × Nat
  | 0, _, last_exception, calls => (last_exception, calls)
  | n + 1, attempt, _, calls =>
    match outcome attempt with
    | none => (none, calls + 1)
    | some e => retryGo outcome n (attempt + 1) (some e) (calls + 1)

def process_event_batch_with_retry (outcome : Nat → Option SyncError)
    (retry_attempts : Nat) : Option SyncError × Nat :=
  retryGo outcome retry_attempts 0 none 0

/-- One iteration of the `_process_events` loop (worker.py lines 98-114):
collect a batch off the front of the queue (the k collected events are
gone from the queue), dispatch it with retry, and log — never re-enqueue —
on failure.  `k` abstracts how many events the time-bounded
`_collect_event_batch` drained. -/
def processEventsIteration (queue : List FileEvent) (k : Nat)
    (outcome : Nat → Option SyncError) (retry_attempts : Nat) :
    List FileEvent × Option SyncError × Nat :=
  let events_batch := queue.take k
  if events_batch.isEmpty then (queue, none, 0)
  else
    let (err, calls) := process_event_batch_with_retry outcome retry_attempts
    (queue.drop k, err, calls)

/-! ## Concrete worlds and states used by the counterexample theorems -/

/-- A world where every metadata extraction raises (`extract_image_metadata`
propagating `OSError`, utils.py lines 24-28), with identity resolution. -/
def wErr : World := ⟨fun _ => true, fun p => p, fun _ => .error .ioError, fun _ => false⟩

/-- A root with one category directory `a` holding one regular supported file. -/
def storageOneJpg : Storage := ⟨true, true, [⟨"a", true, [⟨"x.jpg", "/p/a/x.jpg", true⟩]⟩]⟩

/-- A healthy world: files exist, paths are already resolved, metadata
extraction succeeds with mtime 2, no database faults. -/
def wOk : World :=
  ⟨fun _ => true, fun p => p, fun _ => .ok ⟨2048, some 800, some 600, 2⟩, fun _ => false⟩

/-- The row of `test_handle_file_modified` (tests/test_sync_engine.py lines
230-239): filename `sunset.jpg`, auto title `Sunset`, old mtime — here with
`file_path` equal to the event path so that the path lookup finds it, as the
patched `_get_photo_by_path` does in the test. -/
def stSunset : SessionState :=
  ⟨[⟨1, "sunset.jpg", "/test/photos/landscapes/beautiful_sunset.jpg", "landscapes", "Sunset",
      512, some 1280, some 720, 1⟩], 5⟩

def evBeautiful : FileEvent :=
  ⟨.modified, "/test/photos/landscapes/beautiful_sunset.jpg", "landscapes", 0⟩

/-- A row whose `title` is the empty (null) value. -/
def stEmptyTitle : SessionState :=
  ⟨[⟨1, "sunset.jpg", "/t/l/sunset.jpg", "l", "", 512, none, none, 1⟩], 5⟩

def evSunset : FileEvent := ⟨.modified, "/t/l/sunset.jpg", "l", 0⟩

/-- A world where the row lookup for `/p/a/one.jpg` raises a database-layer
fault (`session.execute` failing inside `_get_photo_by_path`). -/
def wDbFault : World :=
  ⟨fun _ => true, fun p => p, fun _ => .ok ⟨10, none, none, 3⟩, fun p => p == "/p/a/one.jpg"⟩

def evOne : FileEvent := ⟨.created, "/p/a/one.jpg", "a", 0⟩

def evTwo : FileEvent := ⟨.created, "/p/a/two.jpg", "a", 0⟩

/-- A root whose single category directory holds one hidden file with a
supported extension. -/
def storageHidden : Storage :=
  ⟨true, true, [⟨"a", true, [⟨".secret.jpg", "/p/a/.secret.jpg", true⟩]⟩]⟩

/-- A world with healthy I/O whose path resolution is not the identity:
`/photos/a/x.jpg` is a symlink resolving to `/real/x.jpg`. -/
def wSymlink : World :=
  ⟨fun _ => true, fun _ => "/real/x.jpg", fun _ => .ok ⟨10, none, none, 3⟩, fun _ => false⟩

def evSymlinked : FileEvent := ⟨.created, "/photos/a/x.jpg", "a", 0⟩

/-- State after the first application of `evSymlinked` to the empty catalog. -/
def stAfterFirst : SessionState :=
  ⟨[⟨0, "x.jpg", "/real/x.jpg", "a", "X", 10, none, none, 3⟩], 1⟩

/-- State after the second application: a second row with the same
`file_path`. -/
def stAfterSecond : SessionState :=
  ⟨[⟨0, "x.jpg", "/real/x.jpg", "a", "X", 10, none, none, 3⟩,
    ⟨1, "x.jpg", "/real/x.jpg", "a", "X", 10, none, none, 3⟩], 2⟩

/-! ## Counterexample and code-evaluation theorems -/

/-- Claim C1 counterexample: a committed full sync over a root holding one
supported file whose metadata extraction raises (`errors = 1`) commits an
empty catalog, while the set of supported files exactly two levels under
the root is `{/p/a/x.jpg}` — so after this successful (committed) run the
catalog path set differs from the disk set. -/
theorem full_sync_catalog_mismatch_on_error :
    perform_full_sync wErr storageOneJpg [] 0 = .ok ([], ⟨1, 0, 0, 0, 1⟩) ∧
    scanPaths wErr storageOneJpg = ["/p/a/x.jpg"] ∧
    photoPaths [] ≠ scanPaths wErr storageOneJpg := by
  refine ⟨rfl, rfl, ?_⟩
  decide

/-- Claim C3: evaluation of the code at the failing input of
`test_handle_file_modified`.  The stored title `Sunset` equals
`title_from_filename` of the stored filename `sunset.jpg`, the event's
basename is `beautiful_sunset.jpg`, and the mtime changed; the code mutates
`filename` before the auto-title test, so it compares `Sunset` against
`Beautiful Sunset`, judges the title manually set, and leaves it `Sunset` —
the test (and the claim) expect `Beautiful Sunset`. -/
theorem modified_event_title_regeneration_bug :
    generate_title_from_filename "sunset.jpg" = "Sunset" ∧
    generate_title_from_filename "beautiful_sunset.jpg" = "Beautiful Sunset" ∧
    handle_file_modified wOk stSunset evBeautiful =
      .ok ⟨[⟨1, "beautiful_sunset.jpg", "/test/photos/landscapes/beautiful_sunset.jpg",
        "landscapes", "Sunset", 2048, some 800, some 600, 2⟩], 5⟩ ∧
    ("Sunset" : String) ≠ "Beautiful Sunset" := by
  refine ⟨rfl, rfl, rfl, ?_⟩
  decide

/-- Claim C4 counterexample: the empty title is a value distinct from
`title_from_filename("sunset.jpg") = "Sunset"`, yet a MODIFIED event with a
changed mtime rewrites it to `Sunset` — the title does not stay unchanged. -/
theorem title_preservation_fails_on_empty_title :
    ("" : String) ≠ generate_title_from_filename "sunset.jpg" ∧
    handle_file_modified wOk stEmptyTitle evSunset =
      .ok ⟨[⟨1, "sunset.jpg", "/t/l/sunset.jpg", "l", "Sunset", 2048, some 800, some 600, 2⟩],
        5⟩ ∧
    ("Sunset" : String) ≠ "" := by
  refine ⟨?_, rfl, ?_⟩ <;> decide

/-- Claim C5 counterexample: handling the first CREATED event raises a
database-layer fault (the row lookup's `session.execute` fails), yet the
per-event `except Exception` swallows it: the batch is not aborted, the
second event is processed and the transaction commits with its row. -/
theorem batch_db_fault_not_aborting :
    applyEvent wDbFault ⟨[], 0⟩ evOne = .error .databaseError ∧
    process_event_batch wDbFault ⟨[], 0⟩ [evOne, evTwo] =
      .ok ⟨[⟨0, "two.jpg", "/p/a/two.jpg", "a", "Two", 10, none, none, 3⟩], 1⟩ := by
  exact ⟨rfl, rfl⟩

/-- Claim C6 counterexample: `20991399` has month field `99` and day field
`99`, both outside the claimed validated ranges, yet the 8-digit step
removes it: the title of `beach_20991399.jpg` is `Beach`, not
`Beach 20991399`. -/
theorem date8_removed_without_validation :
    generate_title_from_filename "beach_20991399.jpg" = "Beach" ∧
    ("Beach" : String) ≠ "Beach 20991399" := by
  refine ⟨rfl, ?_⟩
  decide

/-- Claim C7 counterexample: the hidden file `.secret.jpg` (basename starts
with a dot) has suffix `.jpg`, so the scan indexes it: a full sync over a
root holding only this hidden file counts it as scanned and creates a
catalog row for it. -/
theorem hidden_file_is_indexed :
    is_supported_image_file "/p/a/.secret.jpg" supported_extensions = true ∧
    perform_full_sync wOk storageHidden [] 0 =
      .ok ([⟨0, ".secret.jpg", "/p/a/.secret.jpg", "a", ".Secret", 2048, some 800, some 600, 2⟩],
        ⟨1, 1, 0, 0, 0⟩) := by
  exact ⟨rfl, rfl⟩

/-- Claim C8 counterexample: the CREATED handler looks a row up by the raw
event path but stores the resolved path; for an event whose path resolves
elsewhere (a symlink), the second application of the same event finds no row
under the raw path and inserts again — two rows, not exactly one. -/
theorem created_twice_duplicates_row :
    handle_file_created wSymlink ⟨[], 0⟩ evSymlinked = .ok stAfterFirst ∧
    handle_file_created wSymlink stAfterFirst evSymlinked = .ok stAfterSecond ∧
    stAfterSecond.rows.length = 2 ∧
    photoPaths stAfterSecond.rows = ["/real/x.jpg", "/real/x.jpg"] := by
  exact ⟨rfl, rfl, rfl, rfl⟩

/-! ## Lemma layer for the full-sync walk -/

/-- The keep condition of the inner file loop (line 150, De Morgan'd):
a regular file with a supported extension. -/
def keepEnt (f : DirEnt) : Bool :=
  f.is_file && is_supported_image_file f.path supported_extensions

/-- The `PLPhoto` object built for a new file during a full sync
(lines 167-178). -/
def mkScanPhoto (category_name : String) (f : DirEnt) (file_path_str : String)
    (md : ImageMetadata) (n : Nat) : Photo :=
  { id := n
    filename := f.name
    file_path := file_path_str
    category := category_name
    title := generate_title_from_filename f.name
    file_size := md.file_size
    width := md.width
    height := md.height
    file_modified_at := md.file_modified_at }

/-- The in-place update of an existing row during a full sync
(lines 188-200), field assignments followed by the conditional title
regeneration. -/
def updatedPhoto (category_name : String) (f : DirEnt) (md : ImageMetadata)
    (photo : Photo) : Photo :=
  let p1 : Photo :=
    { photo with
      filename := f.name
      category := category_name
      file_size := md.file_size
      width := md.width
      height := md.height
      file_modified_at := md.file_modified_at }
  if p1.title == "" || p1.title == generate_title_from_filename p1.filename then
    { p1 with title := generate_title_from_filename f.name }
  else p1

theorem scanFile_skip (w : World) (c : String) (st : ScanState) (f : DirEnt)
    (h : ¬ keepEnt f = true) : scanFile w c st f = st := by
  simp only [scanFile, keepEnt] at *
  simp [h]

theorem updatedPhoto_id (c : String) (f : DirEnt) (md : ImageMetadata) (photo : Photo) :
    (updatedPhoto c f md photo).id = photo.id := by
  simp only [updatedPhoto]
  split <;> rfl

theorem updatedPhoto_path (c : String) (f : DirEnt) (md : ImageMetadata) (photo : Photo) :
    (updatedPhoto c f md photo).file_path = photo.file_path := by
  simp only [updatedPhoto]
  split <;> rfl

theorem updatedPhoto_mtime (c : String) (f : DirEnt) (md : ImageMetadata) (photo : Photo) :
    (updatedPhoto c f md photo).file_modified_at = md.file_modified_at := by
  simp only [updatedPhoto]
  split <;> rfl

/-- Case analysis of one iteration of the file loop on a kept entry,
exposing every component of the successor state. -/
theorem scanFile_characterization (w : World) (c : String) (st : ScanState) (f : DirEnt)
    (hk : keepEnt f = true) :
    (scanFile w c st f).found = st.found ++ [w.resolve f.path] ∧
    (scanFile w c st f).stats.files_scanned = st.stats.files_scanned + 1 ∧
    (scanFile w c st f).stats.files_removed = st.stats.files_removed ∧
    ((∃ err, w.metadata f.path = .error err ∧
      (scanFile w c st f).existing = st.existing ∧
      (scanFile w c st f).added = st.added ∧
      (scanFile w c st f).nextId = st.nextId ∧
      (scanFile w c st f).stats.files_added = st.stats.files_added ∧
      (scanFile w c st f).stats.files_updated = st.stats.files_updated ∧
      (scanFile w c st f).stats.errors = st.stats.errors + 1) ∨
    (∃ md, w.metadata f.path = .ok md ∧
      st.existing.find? (fun p => p.file_path == w.resolve f.path) = none ∧
      (scanFile w c st f).existing = st.existing ∧
      (scanFile w c st f).added =
        st.added ++ [mkScanPhoto c f (w.resolve f.path) md st.nextId] ∧
      (scanFile w c st f).nextId = st.nextId + 1 ∧
      (scanFile w c st f).stats.files_added = st.stats.files_added + 1 ∧
      (scanFile w c st f).stats.files_updated = st.stats.files_updated ∧
      (scanFile w c st f).stats.errors = st.stats.errors) ∨
    (∃ md photo, w.metadata f.path = .ok md ∧
      st.existing.find? (fun p => p.file_path == w.resolve f.path) = some photo ∧
      photo.file_modified_at = md.file_modified_at ∧
      (scanFile w c st f).existing = st.existing ∧
      (scanFile w c st f).added = st.added ∧
      (scanFile w c st f).nextId = st.nextId ∧
      (scanFile w c st f).stats.files_added = st.stats.files_added ∧
      (scanFile w c st f).stats.files_updated = st.stats.files_updated ∧
      (scanFile w c st f).stats.errors = st.stats.errors) ∨
    (∃ md photo, w.metadata f.path = .ok md ∧
      st.existing.find? (fun p => p.file_path == w.resolve f.path) = some photo ∧
      photo.file_modified_at ≠ md.file_modified_at ∧
      (scanFile w c st f).existing = st.existing.map
        (fun q => if q.file_path == photo.file_path then updatedPhoto c f md photo else q) ∧
      (scanFile w c st f).added = st.added ∧
      (scanFile w c st f).nextId = st.nextId ∧
      (scanFile w c st f).stats.files_added = st.stats.files_added ∧
      (scanFile w c st f).stats.files_updated = st.stats.files_updated + 1 ∧
      (scanFile w c st f).stats.errors = st.stats.errors)) := by
  simp only [keepEnt] at hk
  cases hmd : w.metadata f.path with
  | error err =>
    refine ⟨?_, ?_, ?_, Or.inl ⟨err, rfl, ?_, ?_, ?_, ?_, ?_, ?_⟩⟩ <;>
      · simp only [scanFile, hk, hmd]
        rfl
  | ok md =>
    cases hfind : st.existing.find? (fun p => p.file_path == w.resolve f.path) with
    | none =>
      refine ⟨?_, ?_, ?_, Or.inr (Or.inl ⟨md, rfl, rfl, ?_, ?_, ?_, ?_, ?_, ?_⟩)⟩ <;>
        · simp only [scanFile, hk, hmd, hfind, mkScanPhoto]
          rfl
    | some photo =>
      by_cases hmt : photo.file_modified_at = md.file_modified_at
      · refine ⟨?_, ?_, ?_, Or.inr (Or.inr (Or.inl ⟨md, photo, rfl, rfl, hmt, ?_, ?_, ?_, ?_, ?_, ?_⟩))⟩ <;>
          · simp only [scanFile, hk, hmd, hfind]
            simp [hmt]
      · refine ⟨?_, ?_, ?_, Or.inr (Or.inr (Or.inr ⟨md, photo, rfl, rfl, hmt, ?_, ?_, ?_, ?_, ?_, ?_⟩))⟩ <;>
          · simp only [scanFile, hk, hmd, hfind, updatedPhoto]
            simp [hmt]

/-- Projection to the immutable identity of a row: primary key and path
(neither is ever written by an update). -/
def idPath (p : Photo) : Nat × String := (p.id, p.file_path)

theorem photoPaths_eq_of_idPath {l l' : List Photo}
    (h : l.map idPath = l'.map idPath) : photoPaths l = photoPaths l' := by
  have h2 := congrArg (List.map Prod.snd) h
  simpa [photoPaths, idPath, Function.comp] using h2

theorem walkFiles_keep (storage : Storage) :
    ∀ cf ∈ walkFiles storage, keepEnt cf.2 = true := by
  intro cf hcf
  simp only [walkFiles, List.mem_flatMap, List.mem_filter, List.mem_map] at hcf
  obtain ⟨d, _, f, hf, hcf⟩ := hcf
  subst hcf
  simpa [keepEnt] using hf.2

theorem foldl_scanFile_filter (w : World) (c : String) :
    ∀ (entries : List DirEnt) (st : ScanState),
      entries.foldl (scanFile w c) st = (entries.filter keepEnt).foldl (scanFile w c) st := by
  intro entries
  induction entries with
  | nil => intro st; rfl
  | cons f fs ih =>
    intro st
    by_cases hk : keepEnt f = true
    · rw [List.filter_cons_of_pos hk, List.foldl_cons, List.foldl_cons, ih]
    · rw [List.filter_cons_of_neg hk, List.foldl_cons, scanFile_skip w c st f hk, ih]

/-- The nested directory walk equals one fold over the flattened list of
kept files. -/
theorem fullScan_eq_foldl (w : World) (storage : Storage) (st0 : ScanState) :
    fullScan w storage st0 = (walkFiles storage).foldl (scanStep w) st0 := by
  simp only [fullScan, walkFiles]
  induction storage.dirs generalizing st0 with
  | nil => rfl
  | cons d ds ih =>
    by_cases hd : d.is_dir = true
    · rw [List.foldl_cons, if_neg (by simp [hd]), List.filter_cons_of_pos (by simpa using hd),
        List.flatMap_cons, List.foldl_append, List.foldl_map, ih]
      rw [foldl_scanFile_filter]
      rfl
    · rw [List.foldl_cons, if_pos (by simpa using hd),
        List.filter_cons_of_neg (by simpa using hd)]
      exact ih st0

theorem map_update_idPath (l : List Photo) (photo p2 : Photo)
    (hmem : photo ∈ l) (hnd : (photoPaths l).Nodup)
    (hid : p2.id = photo.id) (hpath : p2.file_path = photo.file_path) :
    (l.map (fun q => if q.file_path == photo.file_path then p2 else q)).map idPath =
      l.map idPath := by
  have hnd2 : (l.map (fun p : Photo => p.file_path)).Nodup := hnd
  rw [List.map_map]
  apply List.map_congr_left
  intro q hq
  simp only [Function.comp_apply]
  by_cases hqp : q.file_path = photo.file_path
  · have hqphoto : q = photo := List.inj_on_of_nodup_map hnd2 hq hmem hqp
    subst hqphoto
    rw [if_pos (by simp)]
    simp [idPath, hid, hpath, hqp]
  · rw [if_neg (by simpa using hqp)]


/-- Master invariant of the file-loop fold: row identities (id, path) of the
pre-loaded rows are preserved, `found` accumulates exactly the resolved
paths of the kept files, `files_scanned` counts them, and the added rows
form a tail with consecutive fresh ids whose paths come from the walk and
are new to the catalog. -/
theorem scan_fold_spec (w : World) :
    ∀ (L : List (String × DirEnt)) (st : ScanState),
      (∀ cf ∈ L, keepEnt cf.2 = true) →
      (photoPaths st.existing).Nodup →
      (L.foldl (scanStep w) st).existing.map idPath = st.existing.map idPath ∧
      (L.foldl (scanStep w) st).found = st.found ++ L.map (fun cf => w.resolve cf.2.path) ∧
      (L.foldl (scanStep w) st).stats.files_scanned = st.stats.files_scanned + L.length ∧
      ∃ tail,
        (L.foldl (scanStep w) st).added = st.added ++ tail ∧
        tail.map (·.id) = List.range' st.nextId tail.length ∧
        (L.foldl (scanStep w) st).nextId = st.nextId + tail.length ∧
        List.Sublist (tail.map (·.file_path)) (L.map (fun cf => w.resolve cf.2.path)) ∧
        ∀ q ∈ tail, q.file_path ∉ photoPaths st.existing := by
  intro L
  induction L with
  | nil =>
    intro st _ _
    refine ⟨rfl, by simp, by simp, [], by simp, rfl, by simp, by simp, by simp⟩
  | cons cf L ih =>
    intro st hall hnd
    have hk : keepEnt cf.2 = true := hall cf (List.mem_cons_self cf L)
    have hall2 : ∀ cf2 ∈ L, keepEnt cf2.2 = true :=
      fun cf2 h => hall cf2 (List.mem_cons_of_mem _ h)
    obtain ⟨hF0, hS0, hR0, hcases⟩ := scanFile_characterization w cf.1 st cf.2 hk
    rw [List.foldl_cons]
    have hstep : scanStep w st cf = scanFile w cf.1 st cf.2 := rfl
    rw [hstep]
    rcases hcases with
      ⟨err, hmd, hE, hAd, hN, hFA, hFU, hER⟩ |
      ⟨md, hmd, hfind, hE, hAd, hN, hFA, hFU, hER⟩ |
      ⟨md, photo, hmd, hfind, hmt, hE, hAd, hN, hFA, hFU, hER⟩ |
      ⟨md, photo, hmd, hfind, hmt, hE, hAd, hN, hFA, hFU, hER⟩
    · -- metadata extraction raised
      have hnd1 : (photoPaths (scanFile w cf.1 st cf.2).existing).Nodup := by
        rw [hE]; exact hnd
      obtain ⟨hA, hF, hS, tail, hAdd, hIds, hNid, hSub, hNotin⟩ :=
        ih (scanFile w cf.1 st cf.2) hall2 hnd1
      refine ⟨?_, ?_, ?_, tail, ?_, ?_, ?_, ?_, ?_⟩
      · rw [hA, hE]
      · rw [hF, hF0]
        simp [List.append_assoc]
      · rw [hS, hS0]
        simp only [List.length_cons]
        omega
      · rw [hAdd, hAd]
      · rw [hIds, hN]
      · rw [hNid, hN]
      · simp only [List.map_cons]
        exact hSub.cons _
      · intro q hq
        have h2 := hNotin q hq
        rw [hE] at h2
        exact h2
    · -- new file: a row is appended with the next fresh id
      have hnd1 : (photoPaths (scanFile w cf.1 st cf.2).existing).Nodup := by
        rw [hE]; exact hnd
      obtain ⟨hA, hF, hS, tail, hAdd, hIds, hNid, hSub, hNotin⟩ :=
        ih (scanFile w cf.1 st cf.2) hall2 hnd1
      refine ⟨?_, ?_, ?_,
        mkScanPhoto cf.1 cf.2 (w.resolve cf.2.path) md st.nextId :: tail, ?_, ?_, ?_, ?_, ?_⟩
      · rw [hA, hE]
      · rw [hF, hF0]
        simp [List.append_assoc]
      · rw [hS, hS0]
        simp only [List.length_cons]
        omega
      · rw [hAdd, hAd]
        simp [List.append_assoc]
      · simp only [List.map_cons, List.length_cons]
        rw [List.range'_succ _ _ 1, hIds, hN]
        simp [mkScanPhoto]
      · rw [hNid, hN]
        simp only [List.length_cons]
        omega
      · simp only [List.map_cons]
        have hmkp : (mkScanPhoto cf.1 cf.2 (w.resolve cf.2.path) md st.nextId).file_path =
            w.resolve cf.2.path := rfl
        rw [hmkp]
        exact hSub.cons₂ _
      · intro q hq
        rcases List.mem_cons.mp hq with hq | hq
        · subst hq
          intro hmem
          simp only [photoPaths, List.mem_map] at hmem
          obtain ⟨r, hr, hrp⟩ := hmem
          have hnone := List.find?_eq_none.mp hfind r hr
          simp only [mkScanPhoto] at hrp
          exact hnone (by simp [hrp])
        · have h2 := hNotin q hq
          rw [hE] at h2
          exact h2
    · -- unchanged mtime
      have hnd1 : (photoPaths (scanFile w cf.1 st cf.2).existing).Nodup := by
        rw [hE]; exact hnd
      obtain ⟨hA, hF, hS, tail, hAdd, hIds, hNid, hSub, hNotin⟩ :=
        ih (scanFile w cf.1 st cf.2) hall2 hnd1
      refine ⟨?_, ?_, ?_, tail, ?_, ?_, ?_, ?_, ?_⟩
      · rw [hA, hE]
      · rw [hF, hF0]
        simp [List.append_assoc]
      · rw [hS, hS0]
        simp only [List.length_cons]
        omega
      · rw [hAdd, hAd]
      · rw [hIds, hN]
      · rw [hNid, hN]
      · simp only [List.map_cons]
        exact hSub.cons _
      · intro q hq
        have h2 := hNotin q hq
        rw [hE] at h2
        exact h2
    · -- update in place
      have hmemp : photo ∈ st.existing := List.mem_of_find?_eq_some hfind
      have hA1 :
          ((st.existing.map (fun q =>
            if q.file_path == photo.file_path then updatedPhoto cf.1 cf.2 md photo
            else q)).map idPath) = st.existing.map idPath :=
        map_update_idPath st.existing photo _ hmemp hnd (updatedPhoto_id _ _ _ _)
          (updatedPhoto_path _ _ _ _)
      have hpaths1 :
          photoPaths (st.existing.map (fun q =>
            if q.file_path == photo.file_path then updatedPhoto cf.1 cf.2 md photo
            else q)) = photoPaths st.existing :=
        photoPaths_eq_of_idPath hA1
      have hnd1 : (photoPaths (scanFile w cf.1 st cf.2).existing).Nodup := by
        rw [hE, hpaths1]; exact hnd
      obtain ⟨hA, hF, hS, tail, hAdd, hIds, hNid, hSub, hNotin⟩ :=
        ih (scanFile w cf.1 st cf.2) hall2 hnd1
      refine ⟨?_, ?_, ?_, tail, ?_, ?_, ?_, ?_, ?_⟩
      · rw [hA, hE, hA1]
      · rw [hF, hF0]
        simp [List.append_assoc]
      · rw [hS, hS0]
        simp only [List.length_cons]
        omega
      · rw [hAdd, hAd]
      · rw [hIds, hN]
      · rw [hNid, hN]
      · simp only [List.map_cons]
        exact hSub.cons _
      · intro q hq
        have h2 := hNotin q hq
        rw [hE, hpaths1] at h2
        exact h2

/-- Rows whose path is not visited by the remaining walk survive untouched. -/
theorem scan_fold_preserve (w : World) :
    ∀ (L : List (String × DirEnt)) (st : ScanState),
      (∀ cf ∈ L, keepEnt cf.2 = true) →
      ∀ r ∈ st.existing, r.file_path ∉ L.map (fun cf => w.resolve cf.2.path) →
        r ∈ (L.foldl (scanStep w) st).existing := by
  intro L
  induction L with
  | nil => intro st _ r hr _; exact hr
  | cons cf L ih =>
    intro st hall r hr hnot
    have hk : keepEnt cf.2 = true := hall cf (List.mem_cons_self cf L)
    have hall2 : ∀ cf2 ∈ L, keepEnt cf2.2 = true :=
      fun cf2 h => hall cf2 (List.mem_cons_of_mem _ h)
    have hne : r.file_path ≠ w.resolve cf.2.path := by
      intro h
      exact hnot (by simp [h])
    have hnot2 : r.file_path ∉ L.map (fun cf => w.resolve cf.2.path) := by
      intro h
      exact hnot (by simp [h])
    obtain ⟨hF0, hS0, hR0, hcases⟩ := scanFile_characterization w cf.1 st cf.2 hk
    rw [List.foldl_cons]
    have hstep : scanStep w st cf = scanFile w cf.1 st cf.2 := rfl
    rw [hstep]
    rcases hcases with
      ⟨err, hmd, hE, _⟩ | ⟨md, hmd, hfind, hE, _⟩ |
      ⟨md, photo, hmd, hfind, hmt, hE, _⟩ | ⟨md, photo, hmd, hfind, hmt, hE, _⟩
    · exact ih _ hall2 r (by rw [hE]; exact hr) hnot2
    · exact ih _ hall2 r (by rw [hE]; exact hr) hnot2
    · exact ih _ hall2 r (by rw [hE]; exact hr) hnot2
    · refine ih _ hall2 r ?_ hnot2
      rw [hE]
      have hppath : photo.file_path = w.resolve cf.2.path := by
        simpa using List.find?_some hfind
      have hite :
          (if r.file_path == photo.file_path then updatedPhoto cf.1 cf.2 md photo else r)
            = r := by
        rw [if_neg]
        simp [hppath, hne]
      have hmem2 := List.mem_map_of_mem
        (fun q => if q.file_path == photo.file_path then updatedPhoto cf.1 cf.2 md photo else q) hr
      simp only [] at hmem2
      rw [hite] at hmem2
      exact hmem2


/-- One file-loop step never changes the multiset of catalog paths. -/
theorem scanFile_existing_pathsEq (w : World) (c : String) (st : ScanState) (f : DirEnt)
    (hnd : (photoPaths st.existing).Nodup) :
    photoPaths (scanFile w c st f).existing = photoPaths st.existing := by
  by_cases hk : keepEnt f = true
  · obtain ⟨hF0, hS0, hR0, hcases⟩ := scanFile_characterization w c st f hk
    rcases hcases with
      ⟨err, hmd, hE, _⟩ | ⟨md, hmd, hfind, hE, _⟩ |
      ⟨md, photo, hmd, hfind, hmt, hE, _⟩ | ⟨md, photo, hmd, hfind, hmt, hE, _⟩
    · rw [hE]
    · rw [hE]
    · rw [hE]
    · rw [hE]
      exact photoPaths_eq_of_idPath
        (map_update_idPath st.existing photo _ (List.mem_of_find?_eq_some hfind) hnd
          (updatedPhoto_id _ _ _ _) (updatedPhoto_path _ _ _ _))
  · rw [scanFile_skip w c st f hk]

/-- Every file of the walk whose metadata extraction succeeds ends up, path
and mtime, among the final rows (pre-existing or added). -/
theorem scan_fold_mtimes (w : World) :
    ∀ (L : List (String × DirEnt)) (st : ScanState),
      (∀ cf ∈ L, keepEnt cf.2 = true) →
      (photoPaths st.existing).Nodup →
      (L.map (fun cf => w.resolve cf.2.path)).Nodup →
      ∀ cfm ∈ L, ∀ md, w.metadata cfm.2.path = .ok md →
        ∃ q, (q ∈ (L.foldl (scanStep w) st).existing ∨ q ∈ (L.foldl (scanStep w) st).added) ∧
          q.file_path = w.resolve cfm.2.path ∧ q.file_modified_at = md.file_modified_at := by
  intro L
  induction L with
  | nil => intro st _ _ _ cfm h; exact absurd h (List.not_mem_nil cfm)
  | cons cf L ih =>
    intro st hall hnd hscan cfm hcfm md hmd2
    have hk : keepEnt cf.2 = true := hall cf (List.mem_cons_self cf L)
    have hall2 : ∀ cf3 ∈ L, keepEnt cf3.2 = true :=
      fun cf3 h => hall cf3 (List.mem_cons_of_mem _ h)
    have hscan2 : (L.map (fun cf => w.resolve cf.2.path)).Nodup := by
      simp only [List.map_cons, List.nodup_cons] at hscan
      exact hscan.2
    have hheadnot : w.resolve cf.2.path ∉ L.map (fun cf => w.resolve cf.2.path) := by
      simp only [List.map_cons, List.nodup_cons] at hscan
      exact hscan.1
    have hnd1 : (photoPaths (scanFile w cf.1 st cf.2).existing).Nodup := by
      rw [scanFile_existing_pathsEq w cf.1 st cf.2 hnd]
      exact hnd
    obtain ⟨hF0, hS0, hR0, hcases⟩ := scanFile_characterization w cf.1 st cf.2 hk
    rw [List.foldl_cons]
    have hstep : scanStep w st cf = scanFile w cf.1 st cf.2 := rfl
    rw [hstep]
    rcases List.mem_cons.mp hcfm with heq | hcfm
    · -- the head file itself
      rw [heq] at hmd2 ⊢
      rcases hcases with
        ⟨err, hmd, hE, _⟩ | ⟨md0, hmd, hfind, hE, hAd, _⟩ |
        ⟨md0, photo, hmd, hfind, hmt, hE, hAd, _⟩ | ⟨md0, photo, hmd, hfind, hmt, hE, hAd, _⟩
      · rw [hmd2] at hmd
        exact absurd hmd (by simp)
      · -- a fresh row was inserted for this path
        have hmdeq : md0 = md := by
          rw [hmd2] at hmd
          injection hmd with h
          exact h.symm
        subst hmdeq
        obtain ⟨_, _, _, tail, hAdd, _, _, _, _⟩ :=
          scan_fold_spec w L (scanFile w cf.1 st cf.2) hall2 hnd1
        refine ⟨mkScanPhoto cf.1 cf.2 (w.resolve cf.2.path) md0 st.nextId, Or.inr ?_, rfl, rfl⟩
        rw [hAdd, hAd]
        simp
      · -- existing row already carries the new mtime
        have hmdeq : md0 = md := by
          rw [hmd2] at hmd
          injection hmd with h
          exact h.symm
        subst hmdeq
        have hppath : photo.file_path = w.resolve cf.2.path := by
          simpa using List.find?_some hfind
        refine ⟨photo, Or.inl ?_, hppath, hmt⟩
        refine scan_fold_preserve w L (scanFile w cf.1 st cf.2) hall2 photo ?_ ?_
        · rw [hE]
          exact List.mem_of_find?_eq_some hfind
        · rw [hppath]
          exact hheadnot
      · -- existing row updated in place to the new mtime
        have hmdeq : md0 = md := by
          rw [hmd2] at hmd
          injection hmd with h
          exact h.symm
        subst hmdeq
        have hppath : photo.file_path = w.resolve cf.2.path := by
          simpa using List.find?_some hfind
        refine ⟨updatedPhoto cf.1 cf.2 md0 photo, Or.inl ?_, ?_, updatedPhoto_mtime _ _ _ _⟩
        · refine scan_fold_preserve w L (scanFile w cf.1 st cf.2) hall2 _ ?_ ?_
          · rw [hE]
            have hmem2 := List.mem_map_of_mem
              (fun q => if q.file_path == photo.file_path then updatedPhoto cf.1 cf.2 md0 photo
                else q)
              (List.mem_of_find?_eq_some hfind)
            simp only [] at hmem2
            rw [if_pos (by simp)] at hmem2
            exact hmem2
          · rw [updatedPhoto_path, hppath]
            exact hheadnot
        · rw [updatedPhoto_path, hppath]
    · -- a later file of the walk
      exact ih (scanFile w cf.1 st cf.2) hall2 hnd1 hscan2 cfm hcfm md hmd2

/-- Every file of the walk with successful metadata extraction has its
resolved path among the final rows (pre-existing or added). -/
theorem scan_fold_cover (w : World) :
    ∀ (L : List (String × DirEnt)) (st : ScanState),
      (∀ cf ∈ L, keepEnt cf.2 = true) →
      (photoPaths st.existing).Nodup →
      ∀ cfm ∈ L, (∃ md, w.metadata cfm.2.path = Except.ok md) →
        w.resolve cfm.2.path ∈ photoPaths (L.foldl (scanStep w) st).existing ∨
        w.resolve cfm.2.path ∈ photoPaths (L.foldl (scanStep w) st).added := by
  intro L
  induction L with
  | nil => intro st _ _ cfm h; exact absurd h (List.not_mem_nil cfm)
  | cons cf L ih =>
    intro st hall hnd cfm hcfm hmd2
    have hk : keepEnt cf.2 = true := hall cf (List.mem_cons_self cf L)
    have hall2 : ∀ cf3 ∈ L, keepEnt cf3.2 = true :=
      fun cf3 h => hall cf3 (List.mem_cons_of_mem _ h)
    have hnd1 : (photoPaths (scanFile w cf.1 st cf.2).existing).Nodup := by
      rw [scanFile_existing_pathsEq w cf.1 st cf.2 hnd]
      exact hnd
    obtain ⟨hF0, hS0, hR0, hcases⟩ := scanFile_characterization w cf.1 st cf.2 hk
    rw [List.foldl_cons]
    have hstep : scanStep w st cf = scanFile w cf.1 st cf.2 := rfl
    rw [hstep]
    obtain ⟨hA, _, _, tail, hAdd, _, _, _, _⟩ :=
      scan_fold_spec w L (scanFile w cf.1 st cf.2) hall2 hnd1
    have hpathsfold :
        photoPaths (L.foldl (scanStep w) (scanFile w cf.1 st cf.2)).existing =
          photoPaths (scanFile w cf.1 st cf.2).existing :=
      photoPaths_eq_of_idPath hA
    rcases List.mem_cons.mp hcfm with heq | hcfm
    · rw [heq]
      obtain ⟨md, hmd2⟩ := hmd2
      rcases hcases with
        ⟨err, hmd, hE, _⟩ | ⟨md0, hmd, hfind, hE, hAd, _⟩ |
        ⟨md0, photo, hmd, hfind, hmt, hE, hAd, _⟩ | ⟨md0, photo, hmd, hfind, hmt, hE, hAd, _⟩
      · rw [heq] at hmd2
        rw [hmd] at hmd2
        exact absurd hmd2 (by simp)
      · refine Or.inr ?_
        rw [hAdd, hAd]
        simp only [photoPaths, List.map_append, List.mem_append]
        refine Or.inl (Or.inr ?_)
        simp [mkScanPhoto]
      · refine Or.inl ?_
        rw [hpathsfold, hE]
        have hppath : photo.file_path = w.resolve cf.2.path := by
          simpa using List.find?_some hfind
        rw [← hppath]
        exact List.mem_map_of_mem _ (List.mem_of_find?_eq_some hfind)
      · refine Or.inl ?_
        rw [hpathsfold, scanFile_existing_pathsEq w cf.1 st cf.2 hnd]
        have hppath : photo.file_path = w.resolve cf.2.path := by
          simpa using List.find?_some hfind
        rw [← hppath]
        exact List.mem_map_of_mem _ (List.mem_of_find?_eq_some hfind)
    · exact ih (scanFile w cf.1 st cf.2) hall2 hnd1 cfm hcfm hmd2

/-- When every walked file with readable metadata already has a row with the
same path and mtime, the scan loop changes nothing but `found` and the
scanned/error counters. -/
theorem scan_fold_noop (w : World) :
    ∀ (L : List (String × DirEnt)) (st : ScanState),
      (∀ cf ∈ L, keepEnt cf.2 = true) →
      (photoPaths st.existing).Nodup →
      (∀ cf ∈ L, ∀ md, w.metadata cf.2.path = .ok md →
        ∃ q ∈ st.existing, q.file_path = w.resolve cf.2.path ∧
          q.file_modified_at = md.file_modified_at) →
      (L.foldl (scanStep w) st).existing = st.existing ∧
      (L.foldl (scanStep w) st).added = st.added ∧
      (L.foldl (scanStep w) st).nextId = st.nextId ∧
      (L.foldl (scanStep w) st).stats.files_added = st.stats.files_added ∧
      (L.foldl (scanStep w) st).stats.files_updated = st.stats.files_updated ∧
      (L.foldl (scanStep w) st).stats.files_removed = st.stats.files_removed ∧
      (L.foldl (scanStep w) st).found = st.found ++ L.map (fun cf => w.resolve cf.2.path) := by
  intro L
  induction L with
  | nil => intro st _ _ _; refine ⟨rfl, rfl, rfl, rfl, rfl, rfl, by simp⟩
  | cons cf L ih =>
    intro st hall hnd hsync
    have hk : keepEnt cf.2 = true := hall cf (List.mem_cons_self cf L)
    have hall2 : ∀ cf3 ∈ L, keepEnt cf3.2 = true :=
      fun cf3 h => hall cf3 (List.mem_cons_of_mem _ h)
    have hsync2 : ∀ cf3 ∈ L, ∀ md, w.metadata cf3.2.path = .ok md →
        ∃ q ∈ st.existing, q.file_path = w.resolve cf3.2.path ∧
          q.file_modified_at = md.file_modified_at :=
      fun cf3 h => hsync cf3 (List.mem_cons_of_mem _ h)
    obtain ⟨hF0, hS0, hR0, hcases⟩ := scanFile_characterization w cf.1 st cf.2 hk
    rw [List.foldl_cons]
    have hstep : scanStep w st cf = scanFile w cf.1 st cf.2 := rfl
    rw [hstep]
    rcases hcases with
      ⟨err, hmd, hE, hAd, hN, hFA, hFU, hER⟩ |
      ⟨md0, hmd, hfind, hE, hAd, hN, hFA, hFU, hER⟩ |
      ⟨md0, photo, hmd, hfind, hmt, hE, hAd, hN, hFA, hFU, hER⟩ |
      ⟨md0, photo, hmd, hfind, hmt, hE, hAd, hN, hFA, hFU, hER⟩
    · -- metadata error: nothing but found/scanned/errors changes
      obtain ⟨ih1, ih2, ih3, ih4, ih5, ih6, ih7⟩ := ih (scanFile w cf.1 st cf.2) hall2
        (by rw [hE]; exact hnd) (by rw [hE]; exact hsync2)
      rw [hE] at ih1
      rw [hAd] at ih2
      rw [hN] at ih3
      rw [hFA] at ih4
      rw [hFU] at ih5
      rw [hR0] at ih6
      rw [hF0] at ih7
      refine ⟨ih1, ih2, ih3, ih4, ih5, ih6, ?_⟩
      rw [ih7]
      simp [List.append_assoc]
    · -- impossible: the synchronised row for this path rules out find? = none
      obtain ⟨q, hq, hqp, _⟩ := hsync cf (List.mem_cons_self cf L) md0 hmd
      have := List.find?_eq_none.mp hfind q hq
      exact absurd (by simp [hqp]) this
    · -- mtimes agree: no-op step
      obtain ⟨ih1, ih2, ih3, ih4, ih5, ih6, ih7⟩ := ih (scanFile w cf.1 st cf.2) hall2
        (by rw [hE]; exact hnd) (by rw [hE]; exact hsync2)
      rw [hE] at ih1
      rw [hAd] at ih2
      rw [hN] at ih3
      rw [hFA] at ih4
      rw [hFU] at ih5
      rw [hR0] at ih6
      rw [hF0] at ih7
      refine ⟨ih1, ih2, ih3, ih4, ih5, ih6, ?_⟩
      rw [ih7]
      simp [List.append_assoc]
    · -- impossible: the synchronised row is the found row, so mtimes agree
      obtain ⟨q, hq, hqp, hqm⟩ := hsync cf (List.mem_cons_self cf L) md0 hmd
      have hppath : photo.file_path = w.resolve cf.2.path := by
        simpa using List.find?_some hfind
      have hnd2 : (st.existing.map (fun p : Photo => p.file_path)).Nodup := hnd
      have hqphoto : q = photo :=
        List.inj_on_of_nodup_map hnd2 hq (List.mem_of_find?_eq_some hfind)
          (by rw [hqp, hppath])
      rw [hqphoto] at hqm
      exact absurd hqm hmt

/-! ## Unpacking a committed full sync -/

/-- The scan state reached by the walk of one full sync. -/
def syncScanState (w : World) (storage : Storage) (catalog : List Photo) (n : Nat) :
    ScanState :=
  fullScan w storage
    { existing := catalog, added := [], found := [], stats := ⟨0, 0, 0, 0, 0⟩, nextId := n }

/-- The orphan rows of one full sync (catalog rows whose path was not found
on disk). -/
def syncOrphans (w : World) (storage : Storage) (catalog : List Photo) (n : Nat) :
    List Photo :=
  (syncScanState w storage catalog n).existing.filter
    (fun p => ! (syncScanState w storage catalog n).found.contains p.file_path)

/-- The rows surviving the orphan deletion (delete-by-id). -/
def syncRemaining (w : World) (storage : Storage) (catalog : List Photo) (n : Nat) :
    List Photo :=
  (syncScanState w storage catalog n).existing.filter
    (fun p => ! ((syncOrphans w storage catalog n).map (·.id)).contains p.id)

/-- The committed catalog of one full sync. -/
def syncFinalRows (w : World) (storage : Storage) (catalog : List Photo) (n : Nat) :
    List Photo :=
  syncRemaining w storage catalog n ++ (syncScanState w storage catalog n).added

theorem full_sync_reduces (w : World) (storage : Storage) (catalog : List Photo) (n : Nat)
    (h1 : storage.rootExists = true) (h2 : storage.is_dir = true) :
    perform_full_sync w storage catalog n =
      match commitSession
          { rows := syncFinalRows w storage catalog n
            nextId := (syncScanState w storage catalog n).nextId } with
      | .ok _ =>
        .ok (syncFinalRows w storage catalog n,
          { (syncScanState w storage catalog n).stats with
            files_removed := (syncScanState w storage catalog n).stats.files_removed +
              (syncOrphans w storage catalog n).length })
      | .error err => .error err := by
  rw [perform_full_sync, if_neg (by simp [h1]), if_neg (by simp [h2])]
  rfl

theorem full_sync_ok_elim (w : World) (storage : Storage) (catalog : List Photo) (n : Nat)
    (cat2 : List Photo) (stats : SyncStats)
    (hrun : perform_full_sync w storage catalog n = .ok (cat2, stats)) :
    storage.rootExists = true ∧ storage.is_dir = true ∧
    cat2 = syncFinalRows w storage catalog n ∧
    stats = { (syncScanState w storage catalog n).stats with
      files_removed := (syncScanState w storage catalog n).stats.files_removed +
        (syncOrphans w storage catalog n).length } ∧
    (photoPaths (syncFinalRows w storage catalog n)).Nodup := by
  by_cases h1 : storage.rootExists = true
  · by_cases h2 : storage.is_dir = true
    · refine ⟨h1, h2, ?_⟩
      rw [full_sync_reduces w storage catalog n h1 h2] at hrun
      rcases hcommit : commitSession
          { rows := syncFinalRows w storage catalog n
            nextId := (syncScanState w storage catalog n).nextId } with err | st3
      · rw [hcommit] at hrun
        exact absurd hrun (by simp)
      · rw [hcommit] at hrun
        have hnodup : (photoPaths (syncFinalRows w storage catalog n)).Nodup := by
          rw [commitSession] at hcommit
          by_cases hnd : (photoPaths (syncFinalRows w storage catalog n)).Nodup
          · exact hnd
          · rw [if_neg hnd] at hcommit
            exact absurd hcommit (by simp)
        simp only [Except.ok.injEq, Prod.mk.injEq] at hrun
        exact ⟨hrun.1.symm, hrun.2.symm, hnodup⟩
    · rw [perform_full_sync, if_neg (by simp [h1]), if_pos (by simpa using h2)] at hrun
      exact absurd hrun (by simp)
  · rw [perform_full_sync, if_pos (by simpa using h1)] at hrun
    exact absurd hrun (by simp)

theorem syncScanState_eq_foldl (w : World) (storage : Storage) (catalog : List Photo)
    (n : Nat) :
    syncScanState w storage catalog n =
      (walkFiles storage).foldl (scanStep w)
        { existing := catalog, added := [], found := [], stats := ⟨0, 0, 0, 0, 0⟩
          nextId := n } := by
  rw [syncScanState, fullScan_eq_foldl]

/-- The master invariant instantiated at the start state of a full sync. -/
theorem syncScanState_spec (w : World) (storage : Storage) (catalog : List Photo) (n : Nat)
    (hnd : (photoPaths catalog).Nodup) :
    (syncScanState w storage catalog n).existing.map idPath = catalog.map idPath ∧
    (syncScanState w storage catalog n).found = scanPaths w storage ∧
    (syncScanState w storage catalog n).stats.files_scanned = (walkFiles storage).length ∧
    (syncScanState w storage catalog n).added.map (·.id) =
      List.range' n (syncScanState w storage catalog n).added.length ∧
    List.Sublist ((syncScanState w storage catalog n).added.map (·.file_path))
      (scanPaths w storage) ∧
    ∀ q ∈ (syncScanState w storage catalog n).added, q.file_path ∉ photoPaths catalog := by
  obtain ⟨hA, hF, hS, tail, hAdd, hIds, hNid, hSub, hNot⟩ :=
    scan_fold_spec w (walkFiles storage)
      { existing := catalog, added := [], found := [], stats := ⟨0, 0, 0, 0, 0⟩, nextId := n }
      (walkFiles_keep storage) hnd
  rw [syncScanState_eq_foldl]
  have hAdd2 : (List.foldl (scanStep w)
      { existing := catalog, added := [], found := [], stats := ⟨0, 0, 0, 0, 0⟩, nextId := n }
      (walkFiles storage)).added = tail := by
    simpa using hAdd
  refine ⟨hA, ?_, ?_, ?_, ?_, ?_⟩
  · rw [hF]
    simp [scanPaths]
  · rw [hS]
    simp
  · rw [hAdd2]
    exact hIds
  · rw [hAdd2]
    exact hSub
  · intro q hq
    rw [hAdd2] at hq
    exact hNot q hq

/-- With distinct primary keys, deletion by orphan ids keeps exactly the
rows whose path was found on disk. -/
theorem syncRemaining_eq (w : World) (storage : Storage) (catalog : List Photo) (n : Nat)
    (hids : ((syncScanState w storage catalog n).existing.map (·.id)).Nodup) :
    syncRemaining w storage catalog n =
      (syncScanState w storage catalog n).existing.filter
        (fun p => (syncScanState w storage catalog n).found.contains p.file_path) := by
  rw [syncRemaining]
  apply List.filter_congr
  intro p hp
  cases hfc : (syncScanState w storage catalog n).found.contains p.file_path with
  | false =>
    have hporph : p ∈ syncOrphans w storage catalog n :=
      List.mem_filter.mpr ⟨hp, by rw [hfc]; rfl⟩
    have hmm : p.id ∈ (syncOrphans w storage catalog n).map (·.id) :=
      List.mem_map_of_mem _ hporph
    have hc : ((syncOrphans w storage catalog n).map (·.id)).contains p.id = true :=
      List.elem_eq_true_of_mem hmm
    rw [hc]
    rfl
  | true =>
    have hc : ((syncOrphans w storage catalog n).map (·.id)).contains p.id = false := by
      cases hcon : ((syncOrphans w storage catalog n).map (·.id)).contains p.id with
      | false => rfl
      | true =>
        have hc2 : p.id ∈ (syncOrphans w storage catalog n).map (·.id) := by
          simpa using hcon
        obtain ⟨o, ho, hoid⟩ := List.mem_map.mp hc2
        have homem : o ∈ (syncScanState w storage catalog n).existing :=
          (List.mem_filter.mp ho).1
        have hofc := (List.mem_filter.mp ho).2
        have hop : o = p := List.inj_on_of_nodup_map hids homem hp hoid
        rw [hop] at hofc
        simp only [Bool.not_eq_true'] at hofc
        rw [hfc] at hofc
        exact absurd hofc (by simp)
    rw [hc]
    rfl

/-- Shared consequences of a committed full sync under the catalog
invariants (unique paths, unique primary keys). -/
theorem full_sync_post (w : World) (storage : Storage) (catalog : List Photo) (n : Nat)
    (cat2 : List Photo) (stats : SyncStats)
    (hpaths : (photoPaths catalog).Nodup)
    (hids : (catalog.map (·.id)).Nodup)
    (hrun : perform_full_sync w storage catalog n = .ok (cat2, stats)) :
    cat2 = syncRemaining w storage catalog n ++ (syncScanState w storage catalog n).added ∧
    ((syncScanState w storage catalog n).existing.map (·.id)).Nodup ∧
    syncRemaining w storage catalog n =
      (syncScanState w storage catalog n).existing.filter
        (fun p => (syncScanState w storage catalog n).found.contains p.file_path) ∧
    (syncScanState w storage catalog n).found = scanPaths w storage ∧
    (∀ q ∈ cat2, q.file_path ∈ scanPaths w storage) ∧
    (photoPaths cat2).Nodup := by
  obtain ⟨h1, h2, hcat2, hstats, hnodup⟩ := full_sync_ok_elim w storage catalog n cat2 stats hrun
  obtain ⟨hA, hF, hS, hIds, hSub, hNot⟩ := syncScanState_spec w storage catalog n hpaths
  have hidseq : (syncScanState w storage catalog n).existing.map (·.id) = catalog.map (·.id) := by
    have h3 := congrArg (List.map Prod.fst) hA
    simpa [idPath, Function.comp] using h3
  have hids2 : ((syncScanState w storage catalog n).existing.map (·.id)).Nodup := by
    rw [hidseq]; exact hids
  have hrem := syncRemaining_eq w storage catalog n hids2
  have hcat2s : cat2 = syncRemaining w storage catalog n ++
      (syncScanState w storage catalog n).added := hcat2
  refine ⟨hcat2s, hids2, hrem, hF, ?_, by rw [hcat2]; exact hnodup⟩
  intro q hq
  rw [hcat2s] at hq
  rcases List.mem_append.mp hq with hq | hq
  · rw [hrem] at hq
    have hfc := (List.mem_filter.mp hq).2
    rw [hF] at hfc
    simpa using hfc
  · exact hSub.subset (List.mem_map_of_mem _ hq)

/-- Claim C10: during a full sync every scanned file's resolved path enters
`found_file_paths` before its per-file processing, so a catalog row whose
file is on disk at scan time is never deleted, even when that file's (or any
other file's) metadata extraction raises. -/
theorem full_sync_keeps_present_files (w : World) (storage : Storage) (catalog : List Photo)
    (n : Nat) (cat2 : List Photo) (stats : SyncStats) (r : Photo)
    (hpaths : (photoPaths catalog).Nodup)
    (hids : (catalog.map (·.id)).Nodup)
    (hrun : perform_full_sync w storage catalog n = .ok (cat2, stats))
    (hr : r ∈ catalog) (hdisk : r.file_path ∈ scanPaths w storage) :
    ∃ r2 ∈ cat2, r2.id = r.id ∧ r2.file_path = r.file_path := by
  obtain ⟨hcat2, hids2, hrem, hF, _, _⟩ :=
    full_sync_post w storage catalog n cat2 stats hpaths hids hrun
  obtain ⟨hA, _, _, _, _, _⟩ := syncScanState_spec w storage catalog n hpaths
  have hmm : idPath r ∈ (syncScanState w storage catalog n).existing.map idPath := by
    rw [hA]
    exact List.mem_map_of_mem idPath hr
  obtain ⟨r2, hr2mem, hr2ip⟩ := List.mem_map.mp hmm
  have hr2id : r2.id = r.id := congrArg Prod.fst hr2ip
  have hr2path : r2.file_path = r.file_path := congrArg Prod.snd hr2ip
  have hfound : (syncScanState w storage catalog n).found.contains r2.file_path = true := by
    rw [hF, hr2path]
    exact List.elem_eq_true_of_mem hdisk
  refine ⟨r2, ?_, hr2id, hr2path⟩
  rw [hcat2]
  refine List.mem_append.mpr (Or.inl ?_)
  rw [hrem]
  exact List.mem_filter.mpr ⟨hr2mem, hfound⟩

/-- Claim C10 witness: a catalog row whose file is on disk survives a full
sync in which that file's metadata extraction raises. -/
theorem full_sync_keeps_present_files_witness :
    ∃ r2 ∈ [(⟨7, "x.jpg", "/p/a/x.jpg", "a", "X", 1, none, none, 5⟩ : Photo)],
      r2.id = 7 ∧ r2.file_path = "/p/a/x.jpg" :=
  full_sync_keeps_present_files wErr storageOneJpg
    [⟨7, "x.jpg", "/p/a/x.jpg", "a", "X", 1, none, none, 5⟩] 8
    [⟨7, "x.jpg", "/p/a/x.jpg", "a", "X", 1, none, none, 5⟩] ⟨1, 0, 0, 0, 1⟩
    ⟨7, "x.jpg", "/p/a/x.jpg", "a", "X", 1, none, none, 5⟩
    (by decide) (by decide) rfl (by simp) (by decide)

/-- Claim C7 (amended): the walk keeps exactly the regular files whose
lowercased extension is supported — those are the files counted as scanned,
and every committed row's path comes from them.  Hidden files are not
specially excluded: a dotfile is skipped only when its `pathlib` suffix is
empty or unsupported, while a hidden file with a supported extension is
scanned and indexed (see `hidden_file_is_indexed`). -/
theorem full_sync_ignores_unsupported (w : World) (storage : Storage) (catalog : List Photo)
    (n : Nat) (cat2 : List Photo) (stats : SyncStats)
    (hpaths : (photoPaths catalog).Nodup)
    (hids : (catalog.map (·.id)).Nodup)
    (hrun : perform_full_sync w storage catalog n = .ok (cat2, stats)) :
    stats.files_scanned = (walkFiles storage).length ∧
    ∀ p ∈ photoPaths cat2, p ∈ scanPaths w storage := by
  obtain ⟨h1, h2, hcat2, hstats, hnodup⟩ := full_sync_ok_elim w storage catalog n cat2 stats hrun
  obtain ⟨_, _, _, _, hq, _⟩ := full_sync_post w storage catalog n cat2 stats hpaths hids hrun
  obtain ⟨_, _, hS, _, _, _⟩ := syncScanState_spec w storage catalog n hpaths
  refine ⟨?_, ?_⟩
  · rw [hstats]
    exact hS
  · intro p hp
    obtain ⟨q, hqmem, hqp⟩ := List.mem_map.mp hp
    rw [← hqp]
    exact hq q hqmem

/-- Claim C7 witness: on a root with one supported regular file and one
unsupported file, a run from the empty catalog scans exactly the one
supported file, and each row path is a walked path. -/
theorem full_sync_ignores_unsupported_witness :
    (⟨2, 2, 0, 0, 0⟩ : SyncStats).files_scanned =
      (walkFiles ⟨true, true, [⟨"a", true,
        [⟨"x.jpg", "/p/a/x.jpg", true⟩, ⟨"z.txt", "/p/a/z.txt", true⟩,
          ⟨"y.jpg", "/p/a/y.jpg", true⟩]⟩]⟩).length ∧
    ∀ p ∈ photoPaths [(⟨0, "x.jpg", "/p/a/x.jpg", "a", "X", 2048, some 800, some 600, 2⟩ : Photo),
        ⟨1, "y.jpg", "/p/a/y.jpg", "a", "Y", 2048, some 800, some 600, 2⟩],
      p ∈ scanPaths wOk ⟨true, true, [⟨"a", true,
        [⟨"x.jpg", "/p/a/x.jpg", true⟩, ⟨"z.txt", "/p/a/z.txt", true⟩,
          ⟨"y.jpg", "/p/a/y.jpg", true⟩]⟩]⟩ :=
  full_sync_ignores_unsupported wOk
    ⟨true, true, [⟨"a", true,
      [⟨"x.jpg", "/p/a/x.jpg", true⟩, ⟨"z.txt", "/p/a/z.txt", true⟩,
        ⟨"y.jpg", "/p/a/y.jpg", true⟩]⟩]⟩ [] 0
    [⟨0, "x.jpg", "/p/a/x.jpg", "a", "X", 2048, some 800, some 600, 2⟩,
      ⟨1, "y.jpg", "/p/a/y.jpg", "a", "Y", 2048, some 800, some 600, 2⟩]
    ⟨2, 2, 0, 0, 0⟩ (by decide) (by decide) rfl

/-- Claim C1 (amended): after a committed full sync in which every walked
file's metadata extraction succeeded, the catalog's path set equals the set
of resolved paths of supported regular files exactly two levels under the
root; rows outside that set are deleted, and files deeper than two levels or
directly under the root are not indexed (they are not part of the walk). -/
theorem full_sync_catalog_matches_disk (w : World) (storage : Storage) (catalog : List Photo)
    (n : Nat) (cat2 : List Photo) (stats : SyncStats)
    (hpaths : (photoPaths catalog).Nodup)
    (hids : (catalog.map (·.id)).Nodup)
    (hmd : ∀ cf ∈ walkFiles storage, ∃ md, w.metadata cf.2.path = Except.ok md)
    (hrun : perform_full_sync w storage catalog n = .ok (cat2, stats)) :
    ∀ p, p ∈ photoPaths cat2 ↔ p ∈ scanPaths w storage := by
  obtain ⟨hcat2, hids2, hrem, hF, hq, _⟩ :=
    full_sync_post w storage catalog n cat2 stats hpaths hids hrun
  intro p
  constructor
  · intro hp
    obtain ⟨q, hqmem, hqp⟩ := List.mem_map.mp hp
    rw [← hqp]
    exact hq q hqmem
  · intro hp
    obtain ⟨cf, hcf, hcfp⟩ := List.mem_map.mp hp
    have hcover := scan_fold_cover w (walkFiles storage)
      { existing := catalog, added := [], found := [], stats := ⟨0, 0, 0, 0, 0⟩, nextId := n }
      (walkFiles_keep storage) hpaths cf hcf (hmd cf hcf)
    rw [← syncScanState_eq_foldl] at hcover
    rw [← hcfp]
    rcases hcover with hcover | hcover
    · obtain ⟨r2, hr2mem, hr2p⟩ := List.mem_map.mp hcover
      have hfound : (syncScanState w storage catalog n).found.contains r2.file_path = true := by
        rw [hF, hr2p]
        rw [hcfp]
        exact List.elem_eq_true_of_mem hp
      rw [hcat2]
      rw [← hr2p]
      refine List.mem_map_of_mem _ (List.mem_append.mpr (Or.inl ?_))
      rw [hrem]
      exact List.mem_filter.mpr ⟨hr2mem, hfound⟩
    · obtain ⟨r2, hr2mem, hr2p⟩ := List.mem_map.mp hcover
      rw [hcat2, ← hr2p]
      exact List.mem_map_of_mem _ (List.mem_append.mpr (Or.inr hr2mem))

/-- Claim C1 witness: a fault-free full sync over one category with one file
commits a catalog whose path set is exactly the walked set. -/
theorem full_sync_catalog_matches_disk_witness :
    ("/p/a/x.jpg" ∈ photoPaths [(⟨0, "x.jpg", "/p/a/x.jpg", "a", "X", 2048, some 800,
        some 600, 2⟩ : Photo)]) ↔
      "/p/a/x.jpg" ∈ scanPaths wOk storageOneJpg :=
  full_sync_catalog_matches_disk wOk storageOneJpg [] 0
    [⟨0, "x.jpg", "/p/a/x.jpg", "a", "X", 2048, some 800, some 600, 2⟩]
    ⟨1, 1, 0, 0, 0⟩ (by decide) (by decide)
    (by intro cf hcf; exact ⟨⟨2048, some 800, some 600, 2⟩, rfl⟩) rfl "/p/a/x.jpg"

/-- Claim C2: full sync is idempotent.  Under the catalog invariants (unique
paths and primary keys, fresh-id counter above all existing ids) and
distinct resolved paths on disk, a second full sync over an unchanged
filesystem returns the identical catalog and adds, updates and removes no
rows. -/
theorem full_sync_idempotent (w : World) (storage : Storage) (catalog : List Photo)
    (n : Nat) (cat2 : List Photo) (stats : SyncStats)
    (hpaths : (photoPaths catalog).Nodup)
    (hids : (catalog.map (·.id)).Nodup)
    (hscan : (scanPaths w storage).Nodup)
    (hrun : perform_full_sync w storage catalog n = .ok (cat2, stats)) :
    ∀ n2, ∃ stats2, perform_full_sync w storage cat2 n2 = .ok (cat2, stats2) ∧
      stats2.files_added = 0 ∧ stats2.files_updated = 0 ∧ stats2.files_removed = 0 := by
  obtain ⟨h1, h2, _, _, _⟩ := full_sync_ok_elim w storage catalog n cat2 stats hrun
  obtain ⟨hcat2, hids2, hrem, hF, hqall, hnodup⟩ :=
    full_sync_post w storage catalog n cat2 stats hpaths hids hrun
  have hscan2 : ((walkFiles storage).map (fun cf => w.resolve cf.2.path)).Nodup := hscan
  have hsync2 : ∀ cf ∈ walkFiles storage, ∀ md, w.metadata cf.2.path = Except.ok md →
      ∃ q ∈ cat2, q.file_path = w.resolve cf.2.path ∧
        q.file_modified_at = md.file_modified_at := by
    intro cf hcf md hmdcf
    have hmt := scan_fold_mtimes w (walkFiles storage)
      { existing := catalog, added := [], found := [], stats := ⟨0, 0, 0, 0, 0⟩, nextId := n }
      (walkFiles_keep storage) hpaths hscan2 cf hcf md hmdcf
    rw [← syncScanState_eq_foldl] at hmt
    obtain ⟨q, hqor, hqp, hqm⟩ := hmt
    rcases hqor with hq | hq
    · have hfound : (syncScanState w storage catalog n).found.contains q.file_path = true := by
        rw [hF, hqp]
        exact List.elem_eq_true_of_mem (List.mem_map_of_mem _ hcf)
      refine ⟨q, ?_, hqp, hqm⟩
      rw [hcat2]
      refine List.mem_append.mpr (Or.inl ?_)
      rw [hrem]
      exact List.mem_filter.mpr ⟨hq, hfound⟩
    · refine ⟨q, ?_, hqp, hqm⟩
      rw [hcat2]
      exact List.mem_append.mpr (Or.inr hq)
  intro n2
  obtain ⟨hE2, hAd2, hN2, hFA2, hFU2, hFR2, hFo2⟩ :=
    scan_fold_noop w (walkFiles storage)
      { existing := cat2, added := [], found := [], stats := ⟨0, 0, 0, 0, 0⟩, nextId := n2 }
      (walkFiles_keep storage) hnodup hsync2
  rw [← syncScanState_eq_foldl] at hE2 hAd2 hN2 hFA2 hFU2 hFR2 hFo2
  have hE2b : (syncScanState w storage cat2 n2).existing = cat2 := hE2
  have hAd2b : (syncScanState w storage cat2 n2).added = [] := hAd2
  have hFA2b : (syncScanState w storage cat2 n2).stats.files_added = 0 := hFA2
  have hFU2b : (syncScanState w storage cat2 n2).stats.files_updated = 0 := hFU2
  have hFR2b : (syncScanState w storage cat2 n2).stats.files_removed = 0 := hFR2
  have hFo2b : (syncScanState w storage cat2 n2).found = scanPaths w storage := by
    rw [hFo2]
    simp [scanPaths]
  have horph : syncOrphans w storage cat2 n2 = [] := by
    rw [syncOrphans, hE2b]
    apply List.filter_eq_nil_iff.mpr
    intro q hq
    have hfound : (syncScanState w storage cat2 n2).found.contains q.file_path = true := by
      rw [hFo2b]
      exact List.elem_eq_true_of_mem (hqall q hq)
    intro hcontra
    rw [hfound] at hcontra
    simp at hcontra
  have hrem2 : syncRemaining w storage cat2 n2 = cat2 := by
    rw [syncRemaining, horph, hE2b]
    apply List.filter_eq_self.mpr
    intro a _
    rfl
  have hfinal : syncFinalRows w storage cat2 n2 = cat2 := by
    rw [syncFinalRows, hrem2, hAd2b]
    simp
  have hcommit : commitSession
      { rows := syncFinalRows w storage cat2 n2
        nextId := (syncScanState w storage cat2 n2).nextId } =
      .ok { rows := syncFinalRows w storage cat2 n2
            nextId := (syncScanState w storage cat2 n2).nextId } := by
    rw [commitSession, if_pos]
    rw [hfinal]
    exact hnodup
  refine ⟨{ (syncScanState w storage cat2 n2).stats with
    files_removed := (syncScanState w storage cat2 n2).stats.files_removed +
      (syncOrphans w storage cat2 n2).length }, ?_, ?_, ?_, ?_⟩
  · rw [full_sync_reduces w storage cat2 n2 h1 h2, hcommit, hfinal]
  · exact hFA2b
  · exact hFU2b
  · show (syncScanState w storage cat2 n2).stats.files_removed +
      (syncOrphans w storage cat2 n2).length = 0
    rw [horph, hFR2b]
    rfl

/-- Claim C2 witness: after syncing one file into the empty catalog, a
second sync returns the identical catalog with zero adds, updates and
removals. -/
theorem full_sync_idempotent_witness :
    ∃ stats2, perform_full_sync wOk storageOneJpg
      [⟨0, "x.jpg", "/p/a/x.jpg", "a", "X", 2048, some 800, some 600, 2⟩] 1 =
      .ok ([⟨0, "x.jpg", "/p/a/x.jpg", "a", "X", 2048, some 800, some 600, 2⟩], stats2) ∧
      stats2.files_added = 0 ∧ stats2.files_updated = 0 ∧ stats2.files_removed = 0 :=
  full_sync_idempotent wOk storageOneJpg [] 0
    [⟨0, "x.jpg", "/p/a/x.jpg", "a", "X", 2048, some 800, some 600, 2⟩]
    ⟨1, 1, 0, 0, 0⟩ (by decide) (by decide) (by decide) rfl 1

/-! ## Lemma layer for the event handlers -/

theorem exbind_ok {ε α β : Type} (a : α) (f : α → Except ε β) :
    (Except.ok a >>= f) = f a := rfl

theorem exbind_err {ε α β : Type} (er : ε) (f : α → Except ε β) :
    ((Except.error er : Except ε α) >>= f) = .error er := rfl

/-- The `PLPhoto` constructed by `_handle_file_created` (lines 253-262). -/
def eventPhoto (w : World) (e : FileEvent) (md : ImageMetadata) (n : Nat) : Photo :=
  { id := n
    filename := pathName e.file_path
    file_path := w.resolve e.file_path
    category := e.category
    title := generate_title_from_filename (pathName e.file_path)
    file_size := md.file_size
    width := md.width
    height := md.height
    file_modified_at := md.file_modified_at }

/-- The in-place update of `_handle_file_modified` (lines 288-297). -/
def modifiedPhoto (e : FileEvent) (md : ImageMetadata) (photo : Photo) : Photo :=
  let p1 : Photo :=
    { photo with
      filename := pathName e.file_path
      category := e.category
      file_size := md.file_size
      width := md.width
      height := md.height
      file_modified_at := md.file_modified_at }
  if p1.title == "" || p1.title == generate_title_from_filename p1.filename then
    { p1 with title := generate_title_from_filename (pathName e.file_path) }
  else p1

theorem modifiedPhoto_id (e : FileEvent) (md : ImageMetadata) (photo : Photo) :
    (modifiedPhoto e md photo).id = photo.id := by
  simp only [modifiedPhoto]
  split <;> rfl

theorem modifiedPhoto_path (e : FileEvent) (md : ImageMetadata) (photo : Photo) :
    (modifiedPhoto e md photo).file_path = photo.file_path := by
  simp only [modifiedPhoto]
  split <;> rfl

/-- A non-empty title survives the modified-event update: the regeneration
test compares against the title generated from the (already assigned) new
filename, and when it succeeds it rewrites the title to that same value. -/
theorem modifiedPhoto_title (e : FileEvent) (md : ImageMetadata) (photo : Photo)
    (h : photo.title ≠ "") : (modifiedPhoto e md photo).title = photo.title := by
  simp only [modifiedPhoto]
  split
  · next hcond =>
    rcases Bool.or_eq_true_iff.mp hcond with hcond | hcond
    · exact absurd (by simpa using hcond) h
    · simpa using (by simpa using hcond : photo.title =
        generate_title_from_filename (pathName e.file_path)).symm
  · rfl

/-- Same statement for the full-sync update. -/
theorem updatedPhoto_title (c : String) (f : DirEnt) (md : ImageMetadata) (photo : Photo)
    (h : photo.title ≠ "") : (updatedPhoto c f md photo).title = photo.title := by
  simp only [updatedPhoto]
  split
  · next hcond =>
    rcases Bool.or_eq_true_iff.mp hcond with hcond | hcond
    · exact absurd (by simpa using hcond) h
    · simpa using (by simpa using hcond : photo.title =
        generate_title_from_filename f.name).symm
  · rfl

theorem get_photo_by_path_some (w : World) (rows : List Photo) (p : String) (photo : Photo)
    (h : get_photo_by_path w rows p = .ok (some photo)) :
    rows.filter (fun r => r.file_path == p) = [photo] := by
  rw [get_photo_by_path] at h
  by_cases hlf : w.lookupFault p = true
  · rw [if_pos hlf] at h
    simp at h
  · rw [if_neg hlf] at h
    rcases hfl : rows.filter (fun r => r.file_path == p) with _ | ⟨r1, _ | ⟨r2, rest⟩⟩ <;>
      rw [hfl] at h
    · simp at h
    · have h2 : Except.ok (ε := SyncError) (some r1) = .ok (some photo) := h
      have h3 : r1 = photo := by simpa using h2
      rw [hfl, h3]
    · simp at h

theorem get_photo_by_path_none (w : World) (rows : List Photo) (p : String)
    (h : get_photo_by_path w rows p = .ok none) :
    rows.filter (fun r => r.file_path == p) = [] := by
  rw [get_photo_by_path] at h
  by_cases hlf : w.lookupFault p = true
  · rw [if_pos hlf] at h
    simp at h
  · rw [if_neg hlf] at h
    rcases hfl : rows.filter (fun r => r.file_path == p) with _ | ⟨r1, _ | ⟨r2, rest⟩⟩ <;>
      rw [hfl] at h
    · exact hfl
    · simp at h
    · simp at h

/-- Case analysis of `_handle_file_created`. -/
theorem handle_file_created_characterization (w : World) (st : SessionState) (e : FileEvent) :
    (w.fileExists e.file_path = false ∧ handle_file_created w st e = .ok st) ∨
    (w.fileExists e.file_path = true ∧ ∃ er,
      get_photo_by_path w st.rows e.file_path = .error er ∧
      handle_file_created w st e = .error er) ∨
    (w.fileExists e.file_path = true ∧ ∃ photo,
      get_photo_by_path w st.rows e.file_path = .ok (some photo) ∧
      handle_file_created w st e = .ok st) ∨
    (w.fileExists e.file_path = true ∧
      get_photo_by_path w st.rows e.file_path = .ok none ∧
      ((∃ er, w.metadata e.file_path = .error er ∧ handle_file_created w st e = .error er) ∨
       (∃ md, w.metadata e.file_path = .ok md ∧
         handle_file_created w st e =
           .ok ⟨st.rows ++ [eventPhoto w e md st.nextId], st.nextId + 1⟩))) := by
  by_cases hex : w.fileExists e.file_path = true
  · rcases hgp : get_photo_by_path w st.rows e.file_path with er | opt
    · refine Or.inr (Or.inl ⟨hex, er, rfl, ?_⟩)
      rw [handle_file_created, if_neg (by simp [hex]), hgp]
      rfl
    · rcases opt with _ | photo
      · rcases hmd : w.metadata e.file_path with er | md
        · refine Or.inr (Or.inr (Or.inr ⟨hex, rfl, Or.inl ⟨er, rfl, ?_⟩⟩))
          rw [handle_file_created, if_neg (by simp [hex]), hgp, hmd]
          rfl
        · refine Or.inr (Or.inr (Or.inr ⟨hex, rfl, Or.inr ⟨md, rfl, ?_⟩⟩))
          rw [handle_file_created, if_neg (by simp [hex]), hgp, hmd]
          rfl
      · refine Or.inr (Or.inr (Or.inl ⟨hex, photo, rfl, ?_⟩))
        rw [handle_file_created, if_neg (by simp [hex]), hgp]
        rfl
  · refine Or.inl ⟨by simpa using hex, ?_⟩
    rw [handle_file_created, if_pos (by simpa using hex)]

/-- Case analysis of `_handle_file_modified`. -/
theorem handle_file_modified_characterization (w : World) (st : SessionState) (e : FileEvent) :
    (w.fileExists e.file_path = false ∧ handle_file_modified w st e = .ok st) ∨
    (w.fileExists e.file_path = true ∧ ∃ er,
      get_photo_by_path w st.rows e.file_path = .error er ∧
      handle_file_modified w st e = .error er) ∨
    (w.fileExists e.file_path = true ∧
      get_photo_by_path w st.rows e.file_path = .ok none ∧
      handle_file_modified w st e = handle_file_created w st e) ∨
    (w.fileExists e.file_path = true ∧ ∃ photo,
      get_photo_by_path w st.rows e.file_path = .ok (some photo) ∧
      ((∃ er, w.metadata e.file_path = .error er ∧ handle_file_modified w st e = .error er) ∨
       (∃ md, w.metadata e.file_path = .ok md ∧
         photo.file_modified_at = md.file_modified_at ∧
         handle_file_modified w st e = .ok st) ∨
       (∃ md, w.metadata e.file_path = .ok md ∧
         photo.file_modified_at ≠ md.file_modified_at ∧
         handle_file_modified w st e =
           .ok ⟨st.rows.map
             (fun q => if q.file_path == photo.file_path then modifiedPhoto e md photo else q),
             st.nextId⟩))) := by
  by_cases hex : w.fileExists e.file_path = true
  · rcases hgp : get_photo_by_path w st.rows e.file_path with er | opt
    · refine Or.inr (Or.inl ⟨hex, er, rfl, ?_⟩)
      rw [handle_file_modified, if_neg (by simp [hex]), hgp]
      rfl
    · rcases opt with _ | photo
      · refine Or.inr (Or.inr (Or.inl ⟨hex, rfl, ?_⟩))
        rw [handle_file_modified, if_neg (by simp [hex]), hgp]
        rfl
      · rcases hmd : w.metadata e.file_path with er | md
        · refine Or.inr (Or.inr (Or.inr ⟨hex, photo, rfl, Or.inl ⟨er, rfl, ?_⟩⟩))
          rw [handle_file_modified, if_neg (by simp [hex]), hgp, hmd]
          rfl
        · by_cases hmt : photo.file_modified_at = md.file_modified_at
          · refine Or.inr (Or.inr (Or.inr ⟨hex, photo, rfl, Or.inr (Or.inl ⟨md, rfl, hmt, ?_⟩)⟩))
            rw [handle_file_modified, if_neg (by simp [hex]), hgp, hmd, exbind_ok]
            simp only [exbind_ok]
            rw [if_pos (by simpa using hmt)]
          · refine Or.inr (Or.inr (Or.inr ⟨hex, photo, rfl, Or.inr (Or.inr ⟨md, rfl, hmt, ?_⟩)⟩))
            rw [handle_file_modified, if_neg (by simp [hex]), hgp, hmd, exbind_ok]
            simp only [exbind_ok]
            rw [if_neg (by simpa using hmt)]
            rfl
  · refine Or.inl ⟨by simpa using hex, ?_⟩
    rw [handle_file_modified, if_pos (by simpa using hex)]

/-- Case analysis of `_handle_file_deleted`. -/
theorem handle_file_deleted_characterization (w : World) (st : SessionState) (e : FileEvent) :
    (∃ er, get_photo_by_path w st.rows e.file_path = .error er ∧
      handle_file_deleted w st e = .error er) ∨
    (get_photo_by_path w st.rows e.file_path = .ok none ∧
      handle_file_deleted w st e = .ok st) ∨
    (∃ photo, get_photo_by_path w st.rows e.file_path = .ok (some photo) ∧
      handle_file_deleted w st e =
        .ok ⟨st.rows.filter (fun q => ! (q.id == photo.id)), st.nextId⟩) := by
  rcases hgp : get_photo_by_path w st.rows e.file_path with er | opt
  · refine Or.inl ⟨er, rfl, ?_⟩
    rw [handle_file_deleted, hgp]
    rfl
  · rcases opt with _ | photo
    · refine Or.inr (Or.inl ⟨rfl, ?_⟩)
      rw [handle_file_deleted, hgp]
      rfl
    · refine Or.inr (Or.inr ⟨photo, rfl, ?_⟩)
      rw [handle_file_deleted, hgp]
      rfl

/-- Claim C4 (amended): a row whose `title` is set to any *non-empty* value
distinct from `title_from_filename(row.filename)` keeps that title under any
MODIFIED event and under any full-sync per-file step, while the other fields
may change.  (The empty/null title is the one exception: the code treats it
as never-set and regenerates it, see
`title_preservation_fails_on_empty_title`.) -/
theorem manual_title_preserved :
    (∀ (w : World) (st st2 : SessionState) (e : FileEvent) (r : Photo),
      handle_file_modified w st e = .ok st2 →
      r ∈ st.rows → r.title ≠ "" →
      r.title ≠ generate_title_from_filename r.filename →
      ∃ r2 ∈ st2.rows, r2.id = r.id ∧ r2.title = r.title) ∧
    (∀ (w : World) (c : String) (st : ScanState) (f : DirEnt) (r : Photo),
      (photoPaths st.existing).Nodup →
      r ∈ st.existing → r.title ≠ "" →
      r.title ≠ generate_title_from_filename r.filename →
      ∃ r2 ∈ (scanFile w c st f).existing, r2.id = r.id ∧ r2.title = r.title) := by
  constructor
  · intro w st st2 e r hrun hr ht1 _
    rcases handle_file_modified_characterization w st e with
      ⟨_, hval⟩ | ⟨_, er, _, hval⟩ | ⟨_, _, hval⟩ | ⟨_, photo, hgp, hsub⟩
    · have h2 := Except.ok.inj (hval.symm.trans hrun)
      exact ⟨r, h2 ▸ hr, rfl, rfl⟩
    · rw [hval] at hrun
      simp at hrun
    · have hcreated : handle_file_created w st e = .ok st2 := hval ▸ hrun
      rcases handle_file_created_characterization w st e with
        ⟨_, hv⟩ | ⟨_, er, _, hv⟩ | ⟨_, photo, _, hv⟩ | ⟨_, _, hv⟩
      · have h2 := Except.ok.inj (hv.symm.trans hcreated)
        exact ⟨r, h2 ▸ hr, rfl, rfl⟩
      · rw [hv] at hcreated
        simp at hcreated
      · have h2 := Except.ok.inj (hv.symm.trans hcreated)
        exact ⟨r, h2 ▸ hr, rfl, rfl⟩
      · rcases hv with ⟨er, _, hv⟩ | ⟨md, _, hv⟩
        · rw [hv] at hcreated
          simp at hcreated
        · have h2 := Except.ok.inj (hv.symm.trans hcreated)
          refine ⟨r, ?_, rfl, rfl⟩
          rw [← h2]
          exact List.mem_append_left _ hr
    · rcases hsub with ⟨er, _, hval⟩ | ⟨md, _, _, hval⟩ | ⟨md, _, hmt, hval⟩
      · rw [hval] at hrun
        simp at hrun
      · have h2 := Except.ok.inj (hval.symm.trans hrun)
        exact ⟨r, h2 ▸ hr, rfl, rfl⟩
      · have h2 := Except.ok.inj (hval.symm.trans hrun)
        have hfl := get_photo_by_path_some w st.rows e.file_path photo hgp
        by_cases hrp : r.file_path = photo.file_path
        · have hpf : photo.file_path = e.file_path := by
            have hpmem : photo ∈ st.rows.filter (fun q => q.file_path == e.file_path) := by
              rw [hfl]
              simp
            simpa using (List.mem_filter.mp hpmem).2
          have hrmem : r ∈ st.rows.filter (fun q => q.file_path == e.file_path) :=
            List.mem_filter.mpr ⟨hr, by simp [hrp, hpf]⟩
          have hrphoto : r = photo := by
            rw [hfl] at hrmem
            simpa using hrmem
          refine ⟨modifiedPhoto e md photo, ?_, ?_, ?_⟩
          · rw [← h2]
            have hmem2 := List.mem_map_of_mem
              (fun q => if q.file_path == photo.file_path then modifiedPhoto e md photo else q)
              hr
            simp only [] at hmem2
            rw [if_pos (by simp [hrp])] at hmem2
            exact hmem2
          · rw [modifiedPhoto_id, hrphoto]
          · rw [modifiedPhoto_title e md photo (by rw [← hrphoto]; exact ht1), hrphoto]
        · refine ⟨r, ?_, rfl, rfl⟩
          rw [← h2]
          have hmem2 := List.mem_map_of_mem
            (fun q => if q.file_path == photo.file_path then modifiedPhoto e md photo else q)
            hr
          simp only [] at hmem2
          rw [if_neg (by simpa using hrp)] at hmem2
          exact hmem2
  · intro w c st f r hnd hr ht1 _
    by_cases hk : keepEnt f = true
    · obtain ⟨_, _, _, hcases⟩ := scanFile_characterization w c st f hk
      rcases hcases with
        ⟨er, _, hE, _⟩ | ⟨md, _, _, hE, _⟩ | ⟨md, photo, _, _, _, hE, _⟩ |
        ⟨md, photo, _, hfind, hmt, hE, _⟩
      · exact ⟨r, by rw [hE]; exact hr, rfl, rfl⟩
      · exact ⟨r, by rw [hE]; exact hr, rfl, rfl⟩
      · exact ⟨r, by rw [hE]; exact hr, rfl, rfl⟩
      · by_cases hrp : r.file_path = photo.file_path
        · have hrphoto : r = photo := by
            have hnd2 : (st.existing.map (fun p : Photo => p.file_path)).Nodup := hnd
            exact List.inj_on_of_nodup_map hnd2 hr (List.mem_of_find?_eq_some hfind) hrp
          refine ⟨updatedPhoto c f md photo, ?_, ?_, ?_⟩
          · rw [hE]
            have hmem2 := List.mem_map_of_mem
              (fun q => if q.file_path == photo.file_path then updatedPhoto c f md photo else q)
              hr
            simp only [] at hmem2
            rw [if_pos (by simp [hrp])] at hmem2
            exact hmem2
          · rw [updatedPhoto_id, hrphoto]
          · rw [updatedPhoto_title c f md photo (by rw [← hrphoto]; exact ht1), hrphoto]
        · refine ⟨r, ?_, rfl, rfl⟩
          rw [hE]
          have hmem2 := List.mem_map_of_mem
            (fun q => if q.file_path == photo.file_path then updatedPhoto c f md photo else q)
            hr
          simp only [] at hmem2
          rw [if_neg (by simpa using hrp)] at hmem2
          exact hmem2
    · rw [scanFile_skip w c st f hk]
      exact ⟨r, hr, rfl, rfl⟩

/-- Claim C4 witness: a manually titled row keeps its title through a
MODIFIED event that changes size and mtime. -/
theorem manual_title_preserved_witness :
    ∃ r2 ∈ ({ rows := [⟨1, "sunset.jpg", "/t/l/sunset.jpg", "l", "My Pic", 2048, some 800,
        some 600, 2⟩], nextId := 5 } : SessionState).rows,
      r2.id = 1 ∧ r2.title = "My Pic" :=
  manual_title_preserved.1 wOk
    ⟨[⟨1, "sunset.jpg", "/t/l/sunset.jpg", "l", "My Pic", 512, none, none, 1⟩], 5⟩
    ⟨[⟨1, "sunset.jpg", "/t/l/sunset.jpg", "l", "My Pic", 2048, some 800, some 600, 2⟩], 5⟩
    evSunset ⟨1, "sunset.jpg", "/t/l/sunset.jpg", "l", "My Pic", 512, none, none, 1⟩
    rfl (by simp) (by decide) (by decide)

theorem batch_step_error (w : World) (e : FileEvent) (s : SessionState)
    (hfail : ∃ er, applyEvent w s e = .error er) :
    (match applyEvent w s e with
      | .ok s2 => s2
      | .error _ => s) = s := by
  obtain ⟨er, her⟩ := hfail
  simp only [her]

/-- Claim C5 (amended): a fault raised while handling a single event — of
any kind, database-layer faults included — is swallowed by the per-event
`except Exception` and skipped: the batch behaves exactly as if that event
were absent, and the remaining events are still processed and committed.
Only faults raised outside the per-event loop (at commit) abort and roll
back the whole batch. -/
theorem per_event_fault_skipped (w : World) (st : SessionState) (xs ys : List FileEvent)
    (e : FileEvent)
    (hnd : (photoPaths st.rows).Nodup)
    (hsup : is_supported_image_file e.file_path supported_extensions = true)
    (hfail : ∀ s : SessionState, ∃ er, applyEvent w s e = .error er) :
    process_event_batch w st (xs ++ e :: ys) = process_event_batch w st (xs ++ ys) := by
  rw [process_event_batch, process_event_batch]
  simp only [List.filter_append, List.filter_cons, hsup, if_pos]
  rw [if_neg (show ¬ (((xs.filter (fun e => is_supported_image_file e.file_path
      supported_extensions)) ++ e :: (ys.filter (fun e => is_supported_image_file e.file_path
      supported_extensions))).isEmpty = true) from by simp [List.isEmpty_iff])]
  rw [List.foldl_append, List.foldl_cons, batch_step_error w e _ (hfail _),
    ← List.foldl_append]
  by_cases hAB : ((xs.filter (fun e => is_supported_image_file e.file_path
      supported_extensions)) ++ (ys.filter (fun e => is_supported_image_file e.file_path
      supported_extensions))).isEmpty = true
  · have h0 := List.isEmpty_iff.mp hAB
    rw [if_pos hAB, h0]
    simp only [List.foldl_nil]
    rw [commitSession, if_pos hnd]
  · rw [if_neg hAB]

/-- Claim C5 amended-theorem witness: the database-layer fault on the first
event's lookup is skipped and the batch equals the batch without it. -/
theorem per_event_fault_skipped_witness :
    process_event_batch wDbFault ⟨[], 0⟩ ([] ++ evOne :: [evTwo]) =
      process_event_batch wDbFault ⟨[], 0⟩ ([] ++ [evTwo]) :=
  per_event_fault_skipped wDbFault ⟨[], 0⟩ [] [evTwo] evOne (by decide) (by decide)
    (fun s => ⟨.databaseError, by
      rw [applyEvent]
      rw [show evOne.event_type = FileEventType.created from rfl]
      rw [handle_file_created, if_neg (by simp [wDbFault, evOne])]
      rw [show get_photo_by_path wDbFault s.rows evOne.file_path = .error .databaseError from by
        rw [get_photo_by_path, if_pos (by decide)]]
      rfl⟩)

/-- Claim C8 (amended): for a CREATED event whose path is already in
resolved form (`str(p.resolve()) == str(p)`), whose file exists, whose
lookup does not fault and whose metadata extraction succeeds, applying the
event twice from a catalog without that path yields exactly one row for it
(the second application is a no-op because the lookup now finds the row);
and a DELETED event whose path matches no row is a no-op.  When the event
path is *not* in resolved form, the second CREATED application inserts a
duplicate instead (see `created_twice_duplicates_row`). -/
theorem created_idempotent_deleted_noop :
    (∀ (w : World) (st st1 : SessionState) (e : FileEvent) (md : ImageMetadata),
      w.resolve e.file_path = e.file_path →
      w.fileExists e.file_path = true →
      w.lookupFault e.file_path = false →
      w.metadata e.file_path = .ok md →
      st.rows.filter (fun r => r.file_path == e.file_path) = [] →
      handle_file_created w st e = .ok st1 →
      handle_file_created w st1 e = .ok st1 ∧
        (st1.rows.filter (fun r => r.file_path == e.file_path)).length = 1) ∧
    (∀ (w : World) (st : SessionState) (e : FileEvent),
      w.lookupFault e.file_path = false →
      st.rows.filter (fun r => r.file_path == e.file_path) = [] →
      handle_file_deleted w st e = .ok st) := by
  constructor
  · intro w st st1 e md hres hex hlf hmd hfl hrun
    have hgpnone : get_photo_by_path w st.rows e.file_path = .ok none := by
      rw [get_photo_by_path, if_neg (by simp [hlf]), hfl]
    have hval : handle_file_created w st e =
        .ok ⟨st.rows ++ [eventPhoto w e md st.nextId], st.nextId + 1⟩ := by
      rw [handle_file_created, if_neg (by simp [hex]), hgpnone, hmd]
      rfl
    have hst1 : (⟨st.rows ++ [eventPhoto w e md st.nextId], st.nextId + 1⟩ : SessionState) =
        st1 := Except.ok.inj (hval.symm.trans hrun)
    have hfl1 : st1.rows.filter (fun r => r.file_path == e.file_path) =
        [eventPhoto w e md st.nextId] := by
      rw [← hst1]
      show (st.rows ++ [eventPhoto w e md st.nextId]).filter
        (fun r => r.file_path == e.file_path) = _
      rw [List.filter_append, hfl]
      simp [eventPhoto, hres]
    constructor
    · have hgpsome : get_photo_by_path w st1.rows e.file_path =
          .ok (some (eventPhoto w e md st.nextId)) := by
        rw [get_photo_by_path, if_neg (by simp [hlf]), hfl1]
      rw [handle_file_created, if_neg (by simp [hex]), hgpsome]
      rfl
    · rw [hfl1]
      rfl
  · intro w st e hlf hfl
    have hgpnone : get_photo_by_path w st.rows e.file_path = .ok none := by
      rw [get_photo_by_path, if_neg (by simp [hlf]), hfl]
    rw [handle_file_deleted, hgpnone]
    rfl

/-- Claim C8 witness: a CREATED event at an already-resolved path applied
twice from the empty catalog yields one row, and a DELETED event on an
unknown path is a no-op. -/
theorem created_idempotent_deleted_noop_witness :
    (handle_file_created wOk ⟨[⟨0, "x.jpg", "/p/a/x.jpg", "a", "X", 2048, some 800, some 600,
        2⟩], 1⟩ ⟨.created, "/p/a/x.jpg", "a", 0⟩ =
      .ok ⟨[⟨0, "x.jpg", "/p/a/x.jpg", "a", "X", 2048, some 800, some 600, 2⟩], 1⟩ ∧
      (([(⟨0, "x.jpg", "/p/a/x.jpg", "a", "X", 2048, some 800, some 600, 2⟩ : Photo)].filter
        (fun r => r.file_path == "/p/a/x.jpg")).length = 1)) ∧
    handle_file_deleted wOk ⟨[], 3⟩ ⟨.deleted, "/p/a/gone.jpg", "a", 0⟩ = .ok ⟨[], 3⟩ :=
  ⟨created_idempotent_deleted_noop.1 wOk ⟨[], 0⟩
      ⟨[⟨0, "x.jpg", "/p/a/x.jpg", "a", "X", 2048, some 800, some 600, 2⟩], 1⟩
      ⟨.created, "/p/a/x.jpg", "a", 0⟩ ⟨2048, some 800, some 600, 2⟩
      rfl rfl rfl rfl (by decide) rfl,
    created_idempotent_deleted_noop.2 wOk ⟨[], 3⟩ ⟨.deleted, "/p/a/gone.jpg", "a", 0⟩
      rfl (by decide)⟩

/-! ## Retry-loop lemmas (worker.py) -/

theorem retryGo_calls (outcome : Nat → Option SyncError) :
    ∀ (n a : Nat) (last : Option SyncError) (c : Nat),
      (retryGo outcome n a last c).2 ≤ c + n := by
  intro n
  induction n with
  | zero => intro a last c; simp [retryGo]
  | succ n ih =>
    intro a last c
    rw [retryGo]
    cases outcome a with
    | none =>
      show c + 1 ≤ c + (n + 1)
      omega
    | some er =>
      calc (retryGo outcome n (a + 1) (some er) (c + 1)).2 ≤ c + 1 + n := ih (a + 1) _ (c + 1)
        _ ≤ c + (n + 1) := by omega

theorem retryGo_err (outcome : Nat → Option SyncError) :
    ∀ (n a : Nat) (last : Option SyncError) (c : Nat) (er : SyncError),
      (retryGo outcome n a last c).1 = some er →
      (n = 0 ∧ last = some er) ∨ (0 < n ∧ outcome (a + n - 1) = some er) := by
  intro n
  induction n with
  | zero =>
    intro a last c er h
    exact Or.inl ⟨rfl, h⟩
  | succ n ih =>
    intro a last c er h
    rw [retryGo] at h
    cases ho : outcome a with
    | none =>
      rw [ho] at h
      simp at h
    | some er2 =>
      rw [ho] at h
      rcases ih (a + 1) (some er2) (c + 1) er h with ⟨hn0, hlast⟩ | ⟨hpos, hout⟩
      · subst hn0
        refine Or.inr ⟨Nat.zero_lt_one, ?_⟩
        simpa [ho] using hlast
      · refine Or.inr ⟨Nat.succ_pos n, ?_⟩
        have : a + 1 + n - 1 = a + (n + 1) - 1 := by omega
        rw [← this]
        exact hout

/-- Claim C9: one iteration of the event loop invokes `process_event_batch`
at most `retry_attempts` times; on final failure the surfaced error is the
last attempt's error; and whatever the outcome, the collected events leave
the queue and are never re-enqueued. -/
theorem retry_cap_and_no_requeue (queue : List FileEvent) (k : Nat)
    (outcome : Nat → Option SyncError) (retry_attempts : Nat) :
    (processEventsIteration queue k outcome retry_attempts).1 = queue.drop k ∧
    (processEventsIteration queue k outcome retry_attempts).2.2 ≤ retry_attempts ∧
    ∀ er, (processEventsIteration queue k outcome retry_attempts).2.1 = some er →
      0 < retry_attempts ∧ outcome (retry_attempts - 1) = some er := by
  rw [processEventsIteration]
  by_cases hbe : (queue.take k).isEmpty = true
  · rw [if_pos hbe]
    rcases List.take_eq_nil_iff.mp (List.isEmpty_iff.mp hbe) with hk | hq
    · subst hk
      exact ⟨by simp, by simp, by simp⟩
    · subst hq
      exact ⟨by simp, by simp, by simp⟩
  · rw [if_neg hbe]
    refine ⟨rfl, ?_, ?_⟩
    · simpa using retryGo_calls outcome retry_attempts 0 none 0
    · intro er her
      have h2 : (retryGo outcome retry_attempts 0 none 0).1 = some er := her
      rcases retryGo_err outcome retry_attempts 0 none 0 er h2 with ⟨_, hlast⟩ | ⟨hpos, hout⟩
      · simp at hlast
      · exact ⟨hpos, by simpa using hout⟩

/-- Claim C9 witness: with three always-failing attempts, the batch is
dispatched exactly three times, the queue no longer holds its events, and
the surfaced error is the last attempt's. -/
theorem retry_cap_and_no_requeue_witness :
    (processEventsIteration [evOne, evTwo] 2 (fun _ => some SyncError.databaseError) 3).1 =
      ([evOne, evTwo] : List FileEvent).drop 2 ∧
    (processEventsIteration [evOne, evTwo] 2 (fun _ => some SyncError.databaseError) 3).2.2 ≤ 3 ∧
    ∀ er, (processEventsIteration [evOne, evTwo] 2
        (fun _ => some SyncError.databaseError) 3).2.1 = some er →
      0 < 3 ∧ (fun _ => some SyncError.databaseError) (3 - 1) = some er :=
  retry_cap_and_no_requeue [evOne, evTwo] 2 (fun _ => some SyncError.databaseError) 3

/-- Claim C6 (amended): the 8-digit date step removes any `20\d{6}` token
without validating the month or day fields — the invalid `20991399` is
removed exactly like the valid `20230615` — and only the separated
`YYYY-MM-DD` / `YYYY_MM_DD` step validates month 01-12 and day 01-31:
`2023-06-15` is removed as a date while `2023-99-99` is not (its trailing
`-99` then falls to the trailing-sequence rule, leaving `Beach 2023 99`). -/
theorem date_token_validation_behavior :
    generate_title_from_filename "beach_20230615.jpg" = "Beach" ∧
    generate_title_from_filename "beach_20991399.jpg" = "Beach" ∧
    generate_title_from_filename "beach_2023-06-15.jpg" = "Beach" ∧
    generate_title_from_filename "beach_2023-99-99.jpg" = "Beach 2023 99" ∧
    ("Beach 2023 99" : String) ≠ "Beach" :=
  ⟨rfl, rfl, rfl, rfl, by decide⟩
